import Mathlib

/-!
# Go-Back-N ARQ simulation (`src/main.c`)

A shallow embedding of the single-threaded Go-Back-N simulation.  The C++
program keeps two `int` counters (`senderBase`, `receiverExpected`) and a
pseudo random engine; every call to `chance` consumes one draw of the engine.
Here the engine is a stream of draws (`Nat → ℚ`, exact rationals in place of
doubles) together with a cursor `rngPos` counting the draws consumed so far,
and the console narration is kept as a list of events.  The `int` counters are
unbounded integers: they stay between 0 and `totalPackets`, so no machine
overflow is involved as long as `totalPackets + senderWindowSize` fits an `int`.
The `sleep_for` calls are kept as narration events only.
-/

namespace GoBackN

/-- Simulation parameters, the `const` locals at the top of `main`. -/
structure Config where
  totalPackets : Int
  senderWindowSize : Int
  dataSuccessProb : ℚ
  ackSuccessProb : ℚ
  timeoutDurationMs : Int
  deriving DecidableEq

/-- The parameter values hard-wired in `main`. -/
def mainConfig : Config :=
  { totalPackets := 10, senderWindowSize := 3, dataSuccessProb := 4 / 5,
    ackSuccessProb := 1 / 2, timeoutDurationMs := 2000 }

/-- The random engine: the stream of values `dist(rng)` returns, call after call. -/
abbrev Rng := Nat → ℚ

/-- One line of console narration (the `cout` statements of `main`). -/
inductive Event where
  | window (first last : Int)
  | sending (seq : Int)
  | receivedExpected (seq : Int)
  | sliding (old new : Int)
  | sendingAck (n : Int)
  | receivedAck (n : Int)
  | ackLost (n : Int)
  | outOfOrder (seq expected : Int)
  | packetLost (seq : Int)
  | timeout (base : Int)
  | sleep (ms : Int)
  deriving DecidableEq, Repr

/-- The mutable locals of `main` plus the number of draws taken from the engine
and the narration printed so far. -/
structure State where
  senderBase : Int
  receiverExpected : Int
  rngPos : Nat
  log : List Event
  deriving DecidableEq, Repr

/-- The state at the entry of the `while` loop: `senderBase = 0`,
`receiverExpected = 0`, nothing drawn, nothing printed. -/
def initState : State :=
  { senderBase := 0, receiverExpected := 0, rngPos := 0, log := [] }

/-- The comparison `dist(rng) < probability` of `chance`, on the value drawn. -/
def chance (probability : ℚ) (draw : ℚ) : Bool :=
  decide (draw < probability)

/-- Append one narration line. -/
def State.say (s : State) (e : Event) : State :=
  { s with log := s.log ++ [e] }

/-- A call `chance(probability, rng)` in state `s`: the outcome, and the state
with one more draw consumed. -/
def State.draw (s : State) (rng : Rng) (probability : ℚ) : Bool × State :=
  (chance probability (rng s.rngPos), { s with rngPos := s.rngPos + 1 })

/-- The body of the `for` loop for one sequence number `seq` (lines 53-117).
The Boolean is `true` when the body ended in `break` (and so
`ackForBaseReceived` was set), `false` when it fell through to `++seq`. -/
def sendPacket (cfg : Config) (rng : Rng) (seq : Int) (s : State) : State × Bool :=
  let s := s.say (.sending seq)
  let (delivered, s) := s.draw rng cfg.dataSuccessProb
  if delivered then
    if seq = s.receiverExpected then
      let s := s.say (.receivedExpected seq)
      let s := s.say (.sliding s.receiverExpected (s.receiverExpected + 1))
      let s :=
        if s.receiverExpected + 1 < cfg.totalPackets then
          let s := { s with receiverExpected := s.receiverExpected + 1 }
          s.say (.sendingAck s.receiverExpected)
        else s
      let (acked, s) := s.draw rng cfg.ackSuccessProb
      if acked then
        let s := s.say (.receivedAck s.receiverExpected)
        ({ s with senderBase := seq + 1 }, true)
      else
        (s.say (.ackLost s.receiverExpected), false)
    else
      let s := s.say (.outOfOrder seq s.receiverExpected)
      let s := s.say (.sendingAck s.receiverExpected)
      let (acked, s) := s.draw rng cfg.ackSuccessProb
      if acked then
        let s := s.say (.receivedAck s.receiverExpected)
        ({ s with senderBase := s.receiverExpected }, true)
      else
        (s.say (.ackLost s.receiverExpected), false)
  else
    (s.say (.packetLost seq), false)

/-- The `for` loop of line 52, entered with loop variable `seq`.  Each iteration
tests `seq < senderBase + senderWindowSize && seq < totalPackets`, runs the
body, and either breaks or goes on with `seq + 1`.  The first argument bounds
the number of iterations; the Boolean is `ackForBaseReceived`. -/
def windowLoop (cfg : Config) (rng : Rng) : Nat → Int → State → State × Bool
  | 0, _, s => (s, false)
  | fuel + 1, seq, s =>
    if seq < s.senderBase + cfg.senderWindowSize ∧ seq < cfg.totalPackets then
      let r := sendPacket cfg rng seq s
      if r.2 then r else windowLoop cfg rng fuel (seq + 1) r.1
    else (s, false)

/-- Lines 47-118: print the window header, then run the `for` loop from
`seq = senderBase`.  The loop leaves after at most `senderWindowSize`
iterations, which is the bound handed to `windowLoop` (a larger bound gives the
same result, `windowLoop_fuel`). -/
def sendWindow (cfg : Config) (rng : Rng) (s : State) : State × Bool :=
  let s := s.say (.window s.senderBase
    (min (s.senderBase + cfg.senderWindowSize - 1) (cfg.totalPackets - 1)))
  windowLoop cfg rng cfg.senderWindowSize.toNat s.senderBase s

/-- The round started in `s`, stopped after at most `k` iterations of the `for`
loop: the state in the middle of the round, and whether the loop has hit `break`. -/
def roundPrefix (cfg : Config) (rng : Rng) (s : State) (k : Nat) : State × Bool :=
  windowLoop cfg rng k s.senderBase (s.say (.window s.senderBase
    (min (s.senderBase + cfg.senderWindowSize - 1) (cfg.totalPackets - 1))))

/-- One iteration of the `while` loop (lines 47-128): the window, the timeout
branch when `ackForBaseReceived` is still false, and the pacing delay. -/
def windowRound (cfg : Config) (rng : Rng) (s : State) : State :=
  let r := sendWindow cfg rng s
  let s := if !r.2 then (r.1.say (.timeout r.1.senderBase)).say (.sleep cfg.timeoutDurationMs) else r.1
  s.say (.sleep 500)

/-- Whether the round started in `s` takes the timeout branch of line 121. -/
def timedOut (cfg : Config) (rng : Rng) (s : State) : Bool :=
  !(sendWindow cfg rng s).2

/-- The `while (senderBase < totalPackets)` loop, cut after `n` rounds: the
state once the loop has left, or after `n` iterations if it is still running. -/
def mainLoop (cfg : Config) (rng : Rng) : Nat → State → State
  | 0, s => s
  | n + 1, s =>
    if s.senderBase < cfg.totalPackets then mainLoop cfg rng n (windowRound cfg rng s) else s

/-- The state of `main` after `n` rounds of the `while` loop from the initial state. -/
def run (cfg : Config) (rng : Rng) (n : Nat) : State :=
  mainLoop cfg rng n initState

/-- The loop has left: `senderBase < totalPackets` is false. -/
def terminated (cfg : Config) (s : State) : Bool :=
  !decide (s.senderBase < cfg.totalPackets)

/-- A draw stream on which every transmission is delivered under any positive probability. -/
def rngZero : Rng := fun _ => 0

/-- A draw stream that loses every fourth transmission, starting with the first,
under the probabilities of `main` (`9/10` is at least both, `1/10` below both). -/
def rngLossy : Rng := fun i => if i % 4 = 0 then 9 / 10 else 1 / 10

/-- The narration lines the loop body prints for `seq` in state `s`. -/
def packetLines (cfg : Config) (rng : Rng) (seq : Int) (s : State) : List Event :=
  (sendPacket cfg rng seq s).1.log.drop s.log.length

/-- A draw stream under the probabilities of `main`: the first six draws (`3/5`) deliver
data but lose acknowledgments, every later draw (`1/10`) delivers both. -/
def rngAckLoss : Rng := fun i => if i < 6 then 3 / 5 else 1 / 10

/-- A draw stream under the probabilities of `main` on which every call made by a run
without loss returns true although not every draw passes both thresholds: data draws
(even positions) are `7/10`, below `4/5` but not below `1/2`; acknowledgment draws (odd
positions) are `1/10`. -/
def rngDataHigh : Rng := fun i => if i % 2 = 0 then 7 / 10 else 1 / 10

/-- The draws of `rngAckLoss` for the first round (six draws `3/5`: data delivered,
acknowledgments lost), then data draws `7/10` at even positions and acknowledgment draws
`1/10` at odd positions. -/
def rngAckLossHigh : Rng :=
  fun i => if i < 6 then 3 / 5 else if i % 2 = 0 then 7 / 10 else 1 / 10

/-- A configuration with the window and packet count of `main` and a perfect channel. -/
def perfectConfig : Config :=
  { totalPackets := 10, senderWindowSize := 3, dataSuccessProb := 1,
    ackSuccessProb := 1, timeoutDurationMs := 2000 }

/-- The round-boundary invariant while packets remain: the receiver is not behind the
sender and has not moved past the last packet index. -/
def Inv (cfg : Config) (s : State) : Prop :=
  0 ≤ s.senderBase ∧ s.senderBase ≤ s.receiverExpected ∧ s.receiverExpected + 1 ≤ cfg.totalPackets

/-- The invariant of every round boundary, the final one included. -/
def Good (cfg : Config) (s : State) : Prop :=
  0 ≤ s.senderBase ∧ 0 ≤ s.receiverExpected ∧ s.receiverExpected + 1 ≤ cfg.totalPackets ∧
    (s.senderBase ≤ s.receiverExpected ∨ s.senderBase = cfg.totalPackets)

/-- The state of `main` under the draws of `rngLossy` in the middle of its sixth round,
after packet 8 was accepted and its acknowledgment lost: `senderBase = 8`,
`receiverExpected = 9`, 21 draws used; the next two draws deliver packet 9 and its
acknowledgment. -/
def lastPacketState : State :=
  (roundPrefix mainConfig rngLossy (run mainConfig rngLossy 5) 1).1

/-- The configuration of `main` with `dataSuccessProb = 0`: every data segment is lost. -/
def noDataConfig : Config :=
  { totalPackets := 10, senderWindowSize := 3, dataSuccessProb := 0,
    ackSuccessProb := 1 / 2, timeoutDurationMs := 2000 }

/-- The draws of `rngAckLoss` up to the eighth, followed by draws that lose everything. -/
def rngAckLossCut : Rng := fun i => if i < 8 then rngAckLoss i else 9 / 10

/-- The sequence numbers of the "Sending packet" lines of a narration, in order: the data
segments attempted. -/
def sentSeqs (lines : List Event) : List Int :=
  lines.filterMap fun e => match e with
    | .sending seq => some seq
    | _ => none

/-- The number of sequence numbers in the window of state `s`:
`min (senderBase + senderWindowSize) totalPackets - senderBase`, or 0 when that is negative. -/
def windowCount (cfg : Config) (s : State) : Nat :=
  (min (s.senderBase + cfg.senderWindowSize) cfg.totalPackets - s.senderBase).toNat

/-! ## The loop body, field by field -/

set_option maxRecDepth 8000

theorem sendPacket_senderBase (cfg : Config) (rng : Rng) (seq : Int) (s : State) :
    (sendPacket cfg rng seq s).1.senderBase =
      if chance cfg.dataSuccessProb (rng s.rngPos) = true then
        if chance cfg.ackSuccessProb (rng (s.rngPos + 1)) = true then
          (if seq = s.receiverExpected then seq + 1 else s.receiverExpected)
        else s.senderBase
      else s.senderBase := by
  unfold sendPacket
  simp only [State.say, State.draw]
  split_ifs <;> simp_all

theorem sendPacket_receiverExpected (cfg : Config) (rng : Rng) (seq : Int) (s : State) :
    (sendPacket cfg rng seq s).1.receiverExpected =
      if chance cfg.dataSuccessProb (rng s.rngPos) = true ∧ seq = s.receiverExpected ∧
          s.receiverExpected + 1 < cfg.totalPackets then s.receiverExpected + 1
      else s.receiverExpected := by
  unfold sendPacket
  simp only [State.say, State.draw]
  split_ifs <;> simp_all

theorem sendPacket_rngPos (cfg : Config) (rng : Rng) (seq : Int) (s : State) :
    (sendPacket cfg rng seq s).1.rngPos =
      if chance cfg.dataSuccessProb (rng s.rngPos) = true then s.rngPos + 2 else s.rngPos + 1 := by
  unfold sendPacket
  simp only [State.say, State.draw]
  split_ifs <;> simp_all

theorem sendPacket_break (cfg : Config) (rng : Rng) (seq : Int) (s : State) :
    (sendPacket cfg rng seq s).2 =
      (chance cfg.dataSuccessProb (rng s.rngPos) && chance cfg.ackSuccessProb (rng (s.rngPos + 1))) := by
  unfold sendPacket
  simp only [State.say, State.draw]
  split_ifs <;> simp_all


@[simp] theorem say_senderBase (s : State) (e : Event) : (s.say e).senderBase = s.senderBase := rfl
@[simp] theorem say_receiverExpected (s : State) (e : Event) :
    (s.say e).receiverExpected = s.receiverExpected := rfl
@[simp] theorem say_rngPos (s : State) (e : Event) : (s.say e).rngPos = s.rngPos := rfl

theorem sendPacket_log (cfg : Config) (rng : Rng) (seq : Int) (s : State) :
    (sendPacket cfg rng seq s).1.log = s.log ++
      (if chance cfg.dataSuccessProb (rng s.rngPos) = true then
        if seq = s.receiverExpected then
          if s.receiverExpected + 1 < cfg.totalPackets then
            [.sending seq, .receivedExpected seq,
              .sliding s.receiverExpected (s.receiverExpected + 1),
              .sendingAck (s.receiverExpected + 1),
              if chance cfg.ackSuccessProb (rng (s.rngPos + 1)) = true
              then .receivedAck (s.receiverExpected + 1) else .ackLost (s.receiverExpected + 1)]
          else
            [.sending seq, .receivedExpected seq,
              .sliding s.receiverExpected (s.receiverExpected + 1),
              if chance cfg.ackSuccessProb (rng (s.rngPos + 1)) = true
              then .receivedAck s.receiverExpected else .ackLost s.receiverExpected]
        else
          [.sending seq, .outOfOrder seq s.receiverExpected, .sendingAck s.receiverExpected,
            if chance cfg.ackSuccessProb (rng (s.rngPos + 1)) = true
            then .receivedAck s.receiverExpected else .ackLost s.receiverExpected]
      else [.sending seq, .packetLost seq]) := by
  unfold sendPacket
  simp only [State.say, State.draw]
  split_ifs <;> simp_all

theorem sendPacket_noBreak (cfg : Config) (rng : Rng) (seq : Int) (s : State)
    (h : ¬ (sendPacket cfg rng seq s).2 = true) :
    (sendPacket cfg rng seq s).1.senderBase = s.senderBase := by
  rw [sendPacket_break] at h
  rw [sendPacket_senderBase]
  cases hd : chance cfg.dataSuccessProb (rng s.rngPos) <;>
    cases ha : chance cfg.ackSuccessProb (rng (s.rngPos + 1)) <;> simp_all

theorem windowLoop_fuel (cfg : Config) (rng : Rng) (fuel : Nat) :
    ∀ (k : Nat) (seq : Int) (s : State), s.senderBase + cfg.senderWindowSize - seq ≤ fuel →
      windowLoop cfg rng (fuel + k) seq s = windowLoop cfg rng fuel seq s := by
  induction fuel with
  | zero =>
    intro k seq s h
    cases k with
    | zero => rfl
    | succ k =>
      have hc : ¬ (seq < s.senderBase + cfg.senderWindowSize ∧ seq < cfg.totalPackets) := by
        intro hc; have := hc.1; simp at h; omega
      simp [windowLoop, hc]
  | succ fuel ih =>
    intro k seq s h
    have e : fuel + 1 + k = (fuel + k) + 1 := by omega
    rw [e]
    simp only [windowLoop]
    split_ifs with hc hb
    · rfl
    · apply ih
      rw [sendPacket_noBreak cfg rng seq s hb]; push_cast at h; omega
    · rfl

theorem windowLoop_spec (cfg : Config) (rng : Rng) (fuel : Nat) :
    ∀ (seq : Int) (s : State), Inv cfg s → s.senderBase ≤ seq →
      Good cfg (windowLoop cfg rng fuel seq s).1 ∧
      s.senderBase ≤ (windowLoop cfg rng fuel seq s).1.senderBase ∧
      s.receiverExpected ≤ (windowLoop cfg rng fuel seq s).1.receiverExpected ∧
      s.rngPos ≤ (windowLoop cfg rng fuel seq s).1.rngPos ∧
      ((windowLoop cfg rng fuel seq s).2 = false →
        (windowLoop cfg rng fuel seq s).1.senderBase = s.senderBase) := by
  induction fuel with
  | zero =>
    intro seq s hi _
    obtain ⟨h0, h1, h2⟩ := hi
    exact ⟨⟨h0, le_trans h0 h1, h2, Or.inl h1⟩, le_refl _, le_refl _, le_refl _, fun _ => rfl⟩
  | succ fuel ih =>
    intro seq s hi hseq
    obtain ⟨h0, h1, h2⟩ := hi
    simp only [windowLoop]
    split_ifs with hc hb
    · have hB := sendPacket_senderBase cfg rng seq s
      have hE := sendPacket_receiverExpected cfg rng seq s
      have hP := sendPacket_rngPos cfg rng seq s
      have hb2 := sendPacket_break cfg rng seq s
      rw [hb] at hb2
      simp only [Bool.true_eq, Bool.and_eq_true] at hb2
      simp only [hb2.1, hb2.2, if_true, true_and] at hB hE hP
      refine ⟨?_, ?_, ?_, ?_, fun h => by simp [hb] at h⟩
      · unfold Good
        rw [hB, hE]; split_ifs <;> omega
      · rw [hB]; split_ifs <;> omega
      · rw [hE]; split_ifs <;> omega
      · rw [hP]; omega
    · have hE := sendPacket_receiverExpected cfg rng seq s
      have hP := sendPacket_rngPos cfg rng seq s
      have hB' := sendPacket_noBreak cfg rng seq s hb
      have hE' : s.receiverExpected ≤ (sendPacket cfg rng seq s).1.receiverExpected ∧
          (sendPacket cfg rng seq s).1.receiverExpected + 1 ≤ cfg.totalPackets := by
        rw [hE]; split_ifs <;> omega
      have hP' : s.rngPos ≤ (sendPacket cfg rng seq s).1.rngPos := by
        rw [hP]; split_ifs <;> omega
      have hi' : Inv cfg (sendPacket cfg rng seq s).1 := ⟨by omega, by omega, hE'.2⟩
      obtain ⟨g, b, e, p, t⟩ := ih (seq + 1) (sendPacket cfg rng seq s).1 hi' (by omega)
      exact ⟨g, by omega, by omega, by omega, fun h => by rw [t h, hB']⟩
    · exact ⟨⟨h0, le_trans h0 h1, h2, Or.inl h1⟩, le_refl _, le_refl _, le_refl _, fun _ => rfl⟩

/-! ## Rounds and runs -/

theorem sendWindow_spec (cfg : Config) (rng : Rng) (s : State) (hi : Inv cfg s) :
    Good cfg (sendWindow cfg rng s).1 ∧
    s.senderBase ≤ (sendWindow cfg rng s).1.senderBase ∧
    s.receiverExpected ≤ (sendWindow cfg rng s).1.receiverExpected ∧
    s.rngPos ≤ (sendWindow cfg rng s).1.rngPos ∧
    ((sendWindow cfg rng s).2 = false → (sendWindow cfg rng s).1.senderBase = s.senderBase) :=
  windowLoop_spec cfg rng _ s.senderBase (s.say _) hi (le_refl _)

theorem windowRound_senderBase (cfg : Config) (rng : Rng) (s : State) :
    (windowRound cfg rng s).senderBase = (sendWindow cfg rng s).1.senderBase := by
  unfold windowRound; dsimp only; split_ifs <;> rfl

theorem windowRound_receiverExpected (cfg : Config) (rng : Rng) (s : State) :
    (windowRound cfg rng s).receiverExpected = (sendWindow cfg rng s).1.receiverExpected := by
  unfold windowRound; dsimp only; split_ifs <;> rfl

theorem windowRound_rngPos (cfg : Config) (rng : Rng) (s : State) :
    (windowRound cfg rng s).rngPos = (sendWindow cfg rng s).1.rngPos := by
  unfold windowRound; dsimp only; split_ifs <;> rfl

theorem windowRound_spec (cfg : Config) (rng : Rng) (s : State) (hi : Inv cfg s) :
    Good cfg (windowRound cfg rng s) ∧
    s.senderBase ≤ (windowRound cfg rng s).senderBase ∧
    s.receiverExpected ≤ (windowRound cfg rng s).receiverExpected ∧
    s.rngPos ≤ (windowRound cfg rng s).rngPos := by
  obtain ⟨g, b, e, p, _⟩ := sendWindow_spec cfg rng s hi
  unfold Good at g ⊢
  rw [windowRound_senderBase, windowRound_receiverExpected, windowRound_rngPos]
  exact ⟨g, b, e, p⟩

theorem mainLoop_succ (cfg : Config) (rng : Rng) (n : Nat) :
    ∀ s : State, mainLoop cfg rng (n + 1) s =
      if (mainLoop cfg rng n s).senderBase < cfg.totalPackets
      then windowRound cfg rng (mainLoop cfg rng n s) else mainLoop cfg rng n s := by
  induction n with
  | zero => intro s; simp [mainLoop]
  | succ n ih =>
    intro s
    by_cases h : s.senderBase < cfg.totalPackets
    · have e1 : mainLoop cfg rng (n + 1 + 1) s = mainLoop cfg rng (n + 1) (windowRound cfg rng s) := by
        simp [mainLoop, h]
      have e2 : mainLoop cfg rng (n + 1) s = mainLoop cfg rng n (windowRound cfg rng s) := by
        simp [mainLoop, h]
      rw [e1, e2, ih]
    · have e1 : ∀ m, mainLoop cfg rng (m + 1) s = s := by
        intro m; simp [mainLoop, h]
      rw [e1, e1, if_neg h]

theorem run_succ (cfg : Config) (rng : Rng) (n : Nat) :
    run cfg rng (n + 1) =
      if (run cfg rng n).senderBase < cfg.totalPackets
      then windowRound cfg rng (run cfg rng n) else run cfg rng n :=
  mainLoop_succ cfg rng n initState

theorem Good.inv {cfg : Config} {s : State} (g : Good cfg s)
    (h : s.senderBase < cfg.totalPackets) : Inv cfg s := by
  obtain ⟨h0, _, h2, h3⟩ := g
  exact ⟨h0, by omega, h2⟩

theorem run_good (cfg : Config) (rng : Rng) (h1 : 1 ≤ cfg.totalPackets) (n : Nat) :
    Good cfg (run cfg rng n) := by
  induction n with
  | zero => exact ⟨le_refl _, le_refl _, by simpa [initState] using h1, Or.inl (le_refl _)⟩
  | succ n ih =>
    rw [run_succ]
    split_ifs with h
    · exact (windowRound_spec cfg rng _ (ih.inv h)).1
    · exact ih

theorem run_step_mono (cfg : Config) (rng : Rng) (h1 : 1 ≤ cfg.totalPackets) (n : Nat) :
    (run cfg rng n).senderBase ≤ (run cfg rng (n + 1)).senderBase ∧
    (run cfg rng n).receiverExpected ≤ (run cfg rng (n + 1)).receiverExpected ∧
    (run cfg rng n).rngPos ≤ (run cfg rng (n + 1)).rngPos := by
  rw [run_succ]
  split_ifs with h
  · exact (windowRound_spec cfg rng _ ((run_good cfg rng h1 n).inv h)).2
  · exact ⟨le_refl _, le_refl _, le_refl _⟩


theorem roundPrefix_spec (cfg : Config) (rng : Rng) (s : State) (hi : Inv cfg s) (k : Nat) :
    Good cfg (roundPrefix cfg rng s k).1 ∧
    s.senderBase ≤ (roundPrefix cfg rng s k).1.senderBase ∧
    s.receiverExpected ≤ (roundPrefix cfg rng s k).1.receiverExpected ∧
    s.rngPos ≤ (roundPrefix cfg rng s k).1.rngPos ∧
    ((roundPrefix cfg rng s k).2 = false → (roundPrefix cfg rng s k).1.senderBase = s.senderBase) :=
  windowLoop_spec cfg rng k s.senderBase (s.say _) hi (le_refl _)

theorem roundPrefix_full (cfg : Config) (rng : Rng) (s : State) (k : Nat) :
    roundPrefix cfg rng s (cfg.senderWindowSize.toNat + k) = sendWindow cfg rng s := by
  unfold roundPrefix sendWindow
  apply windowLoop_fuel
  simp only [say_senderBase]
  have := Int.self_le_toNat cfg.senderWindowSize
  omega

/-- C1: from `senderBase = 0`, `receiverExpected = 0`, with at least one packet and a
window of at least one, every round of the `while` loop leaves `senderBase` at least as
large as before and within `0 .. totalPackets`; and in a round still in progress after
`k` segments, processing the next segment never lowers `senderBase`, so every delivered
acknowledgment sets it to a value matching or exceeding the previous one. -/
theorem senderBase_monotone_bounded (cfg : Config) (rng : Rng)
    (hp : 1 ≤ cfg.totalPackets) (_hw : 1 ≤ cfg.senderWindowSize) (n : Nat) :
    (run cfg rng n).senderBase ≤ (run cfg rng (n + 1)).senderBase ∧
    0 ≤ (run cfg rng (n + 1)).senderBase ∧
    (run cfg rng (n + 1)).senderBase ≤ cfg.totalPackets ∧
    ((run cfg rng n).senderBase < cfg.totalPackets → ∀ k : Nat,
      (roundPrefix cfg rng (run cfg rng n) k).2 = false →
      (roundPrefix cfg rng (run cfg rng n) k).1.senderBase ≤
        (sendPacket cfg rng ((run cfg rng n).senderBase + k)
          (roundPrefix cfg rng (run cfg rng n) k).1).1.senderBase) := by
  have g := run_good cfg rng hp (n + 1)
  refine ⟨(run_step_mono cfg rng hp n).1, g.1, ?_, ?_⟩
  · obtain ⟨_, _, h2, h3⟩ := g; omega
  · intro hlt k hk
    have hi := (run_good cfg rng hp n).inv hlt
    obtain ⟨g', _, _, _, hb⟩ := roundPrefix_spec cfg rng _ hi k
    have hb := hb hk
    obtain ⟨_, _, _, g3⟩ := g'
    rw [sendPacket_senderBase]
    split_ifs <;> omega

theorem senderBase_monotone_bounded_witness :
    (run mainConfig rngLossy 1).senderBase ≤ (run mainConfig rngLossy 2).senderBase ∧
    0 ≤ (run mainConfig rngLossy 2).senderBase ∧
    (run mainConfig rngLossy 2).senderBase ≤ mainConfig.totalPackets ∧
    ((run mainConfig rngLossy 1).senderBase < mainConfig.totalPackets → ∀ k : Nat,
      (roundPrefix mainConfig rngLossy (run mainConfig rngLossy 1) k).2 = false →
      (roundPrefix mainConfig rngLossy (run mainConfig rngLossy 1) k).1.senderBase ≤
        (sendPacket mainConfig rngLossy ((run mainConfig rngLossy 1).senderBase + k)
          (roundPrefix mainConfig rngLossy (run mainConfig rngLossy 1) k).1).1.senderBase) :=
  senderBase_monotone_bounded mainConfig rngLossy (by decide) (by decide) 1

theorem sendWindow_first_break (cfg : Config) (rng : Rng) (s : State)
    (hw : 1 ≤ cfg.senderWindowSize) (hlt : s.senderBase < cfg.totalPackets)
    (hd : chance cfg.dataSuccessProb (rng s.rngPos) = true)
    (ha : chance cfg.ackSuccessProb (rng (s.rngPos + 1)) = true) :
    (sendWindow cfg rng s).2 = true ∧
    (sendWindow cfg rng s).1.senderBase =
      (if s.senderBase = s.receiverExpected then s.senderBase + 1 else s.receiverExpected) ∧
    (sendWindow cfg rng s).1.receiverExpected =
      (if s.senderBase = s.receiverExpected ∧ s.receiverExpected + 1 < cfg.totalPackets
        then s.receiverExpected + 1 else s.receiverExpected) ∧
    (sendWindow cfg rng s).1.rngPos = s.rngPos + 2 := by
  obtain ⟨f, hf⟩ : ∃ f, cfg.senderWindowSize.toNat = f + 1 :=
    ⟨cfg.senderWindowSize.toNat - 1, by omega⟩
  have hb := sendPacket_break cfg rng s.senderBase (s.say (.window s.senderBase
    (min (s.senderBase + cfg.senderWindowSize - 1) (cfg.totalPackets - 1))))
  simp only [say_rngPos, hd, ha, Bool.and_self] at hb
  have hc : s.senderBase < s.senderBase + cfg.senderWindowSize ∧
      s.senderBase < cfg.totalPackets := ⟨by omega, hlt⟩
  have e : sendWindow cfg rng s = sendPacket cfg rng s.senderBase (s.say (.window s.senderBase
      (min (s.senderBase + cfg.senderWindowSize - 1) (cfg.totalPackets - 1)))) := by
    unfold sendWindow
    simp only [hf, windowLoop, say_senderBase, hc, and_self, if_true, hb]
  rw [e, sendPacket_senderBase, sendPacket_receiverExpected, sendPacket_rngPos]
  simp [hd, ha, hb]


theorem timedOut_eq_false_iff (cfg : Config) (rng : Rng) (s : State) :
    timedOut cfg rng s = false ↔ (sendWindow cfg rng s).2 = true := by
  unfold timedOut; simp

/-- When every call to `chance` made by the run returns true (in each round that runs, the
data draw for `seq = senderBase` and the acknowledgment draw that follows it), after
`n ≤ totalPackets` rounds the sender has `senderBase = n`, the receiver is at
`min n (totalPackets - 1)`, and `2 n` draws have been used. -/
theorem run_perfect (cfg : Config) (rng : Rng)
    (hp : 1 ≤ cfg.totalPackets) (hw : 1 ≤ cfg.senderWindowSize)
    (hcalls : ∀ m : Nat, (run cfg rng m).senderBase < cfg.totalPackets →
      chance cfg.dataSuccessProb (rng (run cfg rng m).rngPos) = true ∧
      chance cfg.ackSuccessProb (rng ((run cfg rng m).rngPos + 1)) = true) (n : Nat) (hn : (n : Int) ≤ cfg.totalPackets) :
    (run cfg rng n).senderBase = n ∧
    (run cfg rng n).receiverExpected = min (n : Int) (cfg.totalPackets - 1) ∧
    (run cfg rng n).rngPos = 2 * n := by
  induction n with
  | zero =>
    refine ⟨rfl, ?_, rfl⟩
    show (0 : Int) = min ((0 : Nat) : Int) (cfg.totalPackets - 1)
    rw [min_eq_left] <;> simp; omega
  | succ n ih =>
    have hn' : (n : Int) < cfg.totalPackets := by push_cast at hn; omega
    obtain ⟨b, e, p⟩ := ih (le_of_lt hn')
    have hlt : (run cfg rng n).senderBase < cfg.totalPackets := by rw [b]; exact hn'
    have e' : (run cfg rng n).receiverExpected = n := by
      rw [e, min_eq_left]; omega
    obtain ⟨_, hB, hE, hP⟩ := sendWindow_first_break cfg rng (run cfg rng n) hw hlt
      (hcalls n hlt).1 (hcalls n hlt).2
    rw [run_succ, if_pos hlt, windowRound_senderBase, windowRound_receiverExpected,
      windowRound_rngPos, hB, hE, hP, b, e', p]
    push_cast
    refine ⟨by simp, ?_, by ring⟩
    by_cases h : (n : Int) + 1 < cfg.totalPackets
    · rw [if_pos ⟨rfl, h⟩, min_eq_left]; omega
    · rw [if_neg (fun c => h c.2), min_eq_right]; omega; omega

/-! ## A channel that delivers everything -/

/-- When the draws at even positions pass the data threshold and those at odd positions the
acknowledgment threshold from an even position `rngPos` on, every later round starts at
an even position and its first two calls to `chance` return true. -/
theorem calls_of_parity (cfg : Config) (rng : Rng) (hw : 1 ≤ cfg.senderWindowSize) (n : Nat)
    (heven : (run cfg rng n).rngPos % 2 = 0)
    (hd : ∀ i, (run cfg rng n).rngPos ≤ i → i % 2 = 0 →
      chance cfg.dataSuccessProb (rng i) = true)
    (ha : ∀ i, (run cfg rng n).rngPos ≤ i → i % 2 = 1 →
      chance cfg.ackSuccessProb (rng i) = true) (m : Nat) :
    chance cfg.dataSuccessProb (rng (run cfg rng (n + m)).rngPos) = true ∧
    chance cfg.ackSuccessProb (rng ((run cfg rng (n + m)).rngPos + 1)) = true := by
  have key : ∀ k : Nat, (run cfg rng (n + k)).rngPos % 2 = 0 ∧
      (run cfg rng n).rngPos ≤ (run cfg rng (n + k)).rngPos := by
    intro k
    induction k with
    | zero => exact ⟨heven, le_refl _⟩
    | succ k ih =>
      obtain ⟨i1, i2⟩ := ih
      have e : n + (k + 1) = (n + k) + 1 := by omega
      rw [e, run_succ]
      split_ifs with hlt
      · rw [windowRound_rngPos, (sendWindow_first_break cfg rng _ hw hlt (hd _ i2 i1)
          (ha _ (by omega) (by omega))).2.2.2]
        exact ⟨by omega, by omega⟩
      · exact ⟨i1, i2⟩
  obtain ⟨k1, k2⟩ := key m
  exact ⟨hd _ k2 k1, ha _ (by omega) (by omega)⟩

theorem rngDataHigh_calls (m : Nat) :
    chance mainConfig.dataSuccessProb (rngDataHigh (run mainConfig rngDataHigh m).rngPos) = true ∧
    chance mainConfig.ackSuccessProb
      (rngDataHigh ((run mainConfig rngDataHigh m).rngPos + 1)) = true := by
  have h := calls_of_parity mainConfig rngDataHigh (by decide) 0 (by decide)
    (fun i _ hi => by
      have e : rngDataHigh i = 7 / 10 := by unfold rngDataHigh; rw [if_pos hi]
      rw [e]; with_unfolding_all decide)
    (fun i _ hi => by
      have e : rngDataHigh i = 1 / 10 := by unfold rngDataHigh; rw [if_neg (by omega)]
      rw [e]; with_unfolding_all decide) m
  rw [Nat.zero_add] at h
  exact h

theorem rngZero_perfect (i : Nat) :
    chance perfectConfig.dataSuccessProb (rngZero i) = true ∧
      chance perfectConfig.ackSuccessProb (rngZero i) = true := by
  constructor <;> exact (by decide : chance 1 0 = true)

/-- C2 (as stated, refuted): on the perfect channel with `senderWindowSize = 3` and
`totalPackets = 10`, the first round moves `senderBase` from 0 to 1, not to
`0 + min 3 (10 - 0) = 3`, and after 4 rounds `senderBase` is 4 and the loop is still running. -/
theorem perfect_channel_window_counterexample :
    (∀ i, chance perfectConfig.dataSuccessProb (rngZero i) = true ∧
      chance perfectConfig.ackSuccessProb (rngZero i) = true) ∧
    (run perfectConfig rngZero 0).senderBase = 0 ∧
    (run perfectConfig rngZero 1).senderBase = 1 ∧
    (run perfectConfig rngZero 1).senderBase ≠
      (run perfectConfig rngZero 0).senderBase +
        min perfectConfig.senderWindowSize
          (perfectConfig.totalPackets - (run perfectConfig rngZero 0).senderBase) ∧
    (run perfectConfig rngZero 4).senderBase = 4 ∧
    terminated perfectConfig (run perfectConfig rngZero 4) = false :=
  ⟨rngZero_perfect, by decide, by decide, by decide, by decide, by decide⟩

/-- C2 (amended): when every call to `chance` returns true (in each round that runs, the
data draw for `seq = senderBase` passes `dataSuccessProb` and the acknowledgment draw that
follows passes `ackSuccessProb`; draws the run does not consume are not constrained), every
round of the `while` loop advances `senderBase` by exactly 1, consumes exactly those two
draws and does not take the timeout branch, so after `n ≤ totalPackets` rounds
`senderBase = n` and the loop leaves after exactly `totalPackets` rounds; with
`senderWindowSize = 3`, `totalPackets = 10` that is exactly 10 rounds with `senderBase`
taking the values 0, 1, ..., 10. -/
theorem perfect_channel_rounds (cfg : Config) (rng : Rng)
    (hp : 1 ≤ cfg.totalPackets) (hw : 1 ≤ cfg.senderWindowSize)
    (hcalls : ∀ m : Nat, (run cfg rng m).senderBase < cfg.totalPackets →
      chance cfg.dataSuccessProb (rng (run cfg rng m).rngPos) = true ∧
      chance cfg.ackSuccessProb (rng ((run cfg rng m).rngPos + 1)) = true) :
    (∀ n : Nat, (n : Int) < cfg.totalPackets →
      (run cfg rng (n + 1)).senderBase = (run cfg rng n).senderBase + 1 ∧
      (run cfg rng (n + 1)).rngPos = (run cfg rng n).rngPos + 2 ∧
      timedOut cfg rng (run cfg rng n) = false ∧
      terminated cfg (run cfg rng n) = false) ∧
    (∀ n : Nat, (n : Int) ≤ cfg.totalPackets → (run cfg rng n).senderBase = n) ∧
    terminated cfg (run cfg rng cfg.totalPackets.toNat) = true ∧
    (cfg.senderWindowSize = 3 → cfg.totalPackets = 10 →
      (List.range 11).map (fun n => (run cfg rng n).senderBase) =
        [0, 1, 2, 3, 4, 5, 6, 7, 8, 9, 10] ∧
      terminated cfg (run cfg rng 10) = true ∧
      ∀ n : Nat, n < 10 → terminated cfg (run cfg rng n) = false) := by
  have base : ∀ n : Nat, (n : Int) ≤ cfg.totalPackets → (run cfg rng n).senderBase = n :=
    fun n hn => (run_perfect cfg rng hp hw hcalls n hn).1
  have live : ∀ n : Nat, (n : Int) < cfg.totalPackets → terminated cfg (run cfg rng n) = false := by
    intro n hn
    simp [terminated, base n (le_of_lt hn), hn]
  have fin : ∀ n : Nat, (n : Int) = cfg.totalPackets → terminated cfg (run cfg rng n) = true := by
    intro n hn
    simp [terminated, base n (le_of_eq hn), hn]
  refine ⟨?_, base, fin _ (by omega), ?_⟩
  · intro n hn
    refine ⟨?_, ?_, ?_, live n hn⟩
    · rw [base n (le_of_lt hn), base (n + 1) (by push_cast; omega)]; push_cast; rfl
    · rw [(run_perfect cfg rng hp hw hcalls n (le_of_lt hn)).2.2,
        (run_perfect cfg rng hp hw hcalls (n + 1) (by push_cast; omega)).2.2]
      omega
    · rw [timedOut_eq_false_iff]
      have hlt : (run cfg rng n).senderBase < cfg.totalPackets := by
        rw [base n (le_of_lt hn)]; exact hn
      exact (sendWindow_first_break cfg rng _ hw hlt (hcalls n hlt).1 (hcalls n hlt).2).1
  · intro _ h10
    refine ⟨?_, fin 10 (by rw [h10]; rfl), fun n hn => live n (by rw [h10]; omega)⟩
    simp only [List.range, List.range.loop, List.map]
    rw [base 0 (by rw [h10]; decide), base 1 (by rw [h10]; decide), base 2 (by rw [h10]; decide),
      base 3 (by rw [h10]; decide), base 4 (by rw [h10]; decide), base 5 (by rw [h10]; decide),
      base 6 (by rw [h10]; decide), base 7 (by rw [h10]; decide), base 8 (by rw [h10]; decide),
      base 9 (by rw [h10]; decide), base 10 (by rw [h10]; decide)]
    rfl

theorem perfect_channel_rounds_witness :
    (∀ n : Nat, (n : Int) < mainConfig.totalPackets →
      (run mainConfig rngDataHigh (n + 1)).senderBase =
        (run mainConfig rngDataHigh n).senderBase + 1 ∧
      (run mainConfig rngDataHigh (n + 1)).rngPos = (run mainConfig rngDataHigh n).rngPos + 2 ∧
      timedOut mainConfig rngDataHigh (run mainConfig rngDataHigh n) = false ∧
      terminated mainConfig (run mainConfig rngDataHigh n) = false) ∧
    (∀ n : Nat, (n : Int) ≤ mainConfig.totalPackets →
      (run mainConfig rngDataHigh n).senderBase = n) ∧
    terminated mainConfig (run mainConfig rngDataHigh mainConfig.totalPackets.toNat) = true ∧
    (mainConfig.senderWindowSize = 3 → mainConfig.totalPackets = 10 →
      (List.range 11).map (fun n => (run mainConfig rngDataHigh n).senderBase) =
        [0, 1, 2, 3, 4, 5, 6, 7, 8, 9, 10] ∧
      terminated mainConfig (run mainConfig rngDataHigh 10) = true ∧
      ∀ n : Nat, n < 10 → terminated mainConfig (run mainConfig rngDataHigh n) = false) :=
  perfect_channel_rounds mainConfig rngDataHigh (by decide) (by decide)
    (fun m _ => rngDataHigh_calls m)

theorem packetLines_eq (cfg : Config) (rng : Rng) (seq : Int) (s : State) :
    packetLines cfg rng seq s =
      (if chance cfg.dataSuccessProb (rng s.rngPos) = true then
        if seq = s.receiverExpected then
          if s.receiverExpected + 1 < cfg.totalPackets then
            [.sending seq, .receivedExpected seq,
              .sliding s.receiverExpected (s.receiverExpected + 1),
              .sendingAck (s.receiverExpected + 1),
              if chance cfg.ackSuccessProb (rng (s.rngPos + 1)) = true
              then .receivedAck (s.receiverExpected + 1) else .ackLost (s.receiverExpected + 1)]
          else
            [.sending seq, .receivedExpected seq,
              .sliding s.receiverExpected (s.receiverExpected + 1),
              if chance cfg.ackSuccessProb (rng (s.rngPos + 1)) = true
              then .receivedAck s.receiverExpected else .ackLost s.receiverExpected]
        else
          [.sending seq, .outOfOrder seq s.receiverExpected, .sendingAck s.receiverExpected,
            if chance cfg.ackSuccessProb (rng (s.rngPos + 1)) = true
            then .receivedAck s.receiverExpected else .ackLost s.receiverExpected]
      else [.sending seq, .packetLost seq]) := by
  unfold packetLines
  rw [sendPacket_log, List.drop_left]

/-! ## Claims about one segment -/

/-- C3 (as stated, refuted): with `totalPackets = 10`, in the state reached after 9 rounds
on the perfect channel (`senderBase = 9`, `receiverExpected = 9`) the delivered final
packet 9 is accepted, `receiverExpected` stays 9, yet two draws are consumed (data and
acknowledgment) and `senderBase` changes from 9 to 10. -/
theorem final_packet_ack_counterexample :
    (run perfectConfig rngZero 9).senderBase = 9 ∧
    (run perfectConfig rngZero 9).receiverExpected = 9 ∧
    (run perfectConfig rngZero 9).receiverExpected + 1 = perfectConfig.totalPackets ∧
    chance perfectConfig.dataSuccessProb (rngZero (run perfectConfig rngZero 9).rngPos) = true ∧
    (sendPacket perfectConfig rngZero 9 (run perfectConfig rngZero 9)).1.receiverExpected = 9 ∧
    (sendPacket perfectConfig rngZero 9 (run perfectConfig rngZero 9)).1.rngPos =
      (run perfectConfig rngZero 9).rngPos + 2 ∧
    (sendPacket perfectConfig rngZero 9 (run perfectConfig rngZero 9)).1.senderBase = 10 ∧
    packetLines perfectConfig rngZero 9 (run perfectConfig rngZero 9) =
      [.sending 9, .receivedExpected 9, .sliding 9 10, .receivedAck 9] := by
  decide

/-- C3 (amended): when `receiverExpected + 1 == totalPackets` and a delivered data segment
has `seq == receiverExpected`, the receiver does not advance `receiverExpected` and prints
no "Sending ACK" line, but one acknowledgment draw is still consumed for that acceptance:
if it is delivered `senderBase` becomes `seq + 1 = totalPackets` and the round ends,
otherwise `senderBase` is unchanged and the loop goes on. -/
theorem final_packet_acceptance (cfg : Config) (rng : Rng) (seq : Int) (s : State)
    (hfin : s.receiverExpected + 1 = cfg.totalPackets) (hseq : seq = s.receiverExpected)
    (hd : chance cfg.dataSuccessProb (rng s.rngPos) = true) :
    (sendPacket cfg rng seq s).1.receiverExpected = s.receiverExpected ∧
    (∀ n, Event.sendingAck n ∉ packetLines cfg rng seq s) ∧
    (sendPacket cfg rng seq s).1.rngPos = s.rngPos + 2 ∧
    (sendPacket cfg rng seq s).2 = chance cfg.ackSuccessProb (rng (s.rngPos + 1)) ∧
    (chance cfg.ackSuccessProb (rng (s.rngPos + 1)) = true →
      (sendPacket cfg rng seq s).1.senderBase = seq + 1 ∧
      (sendPacket cfg rng seq s).1.senderBase = cfg.totalPackets) ∧
    (chance cfg.ackSuccessProb (rng (s.rngPos + 1)) = false →
      (sendPacket cfg rng seq s).1.senderBase = s.senderBase) := by
  have hnot : ¬ s.receiverExpected + 1 < cfg.totalPackets := by omega
  refine ⟨?_, ?_, ?_, ?_, ?_, ?_⟩
  · rw [sendPacket_receiverExpected]; simp [hnot]
  · intro n
    rw [packetLines_eq]
    simp only [hd, hseq, hnot, if_true, if_false]
    split_ifs <;> simp
  · rw [sendPacket_rngPos]; simp [hd]
  · rw [sendPacket_break]; simp [hd]
  · intro ha
    rw [sendPacket_senderBase]
    simp only [hd, ha, hseq, if_true]
    exact ⟨trivial, hfin⟩
  · intro ha
    rw [sendPacket_senderBase]
    simp [hd, ha]

theorem final_packet_acceptance_witness :
    (sendPacket mainConfig rngLossy 9 lastPacketState).1.receiverExpected =
      lastPacketState.receiverExpected ∧
    (∀ n, Event.sendingAck n ∉ packetLines mainConfig rngLossy 9 lastPacketState) ∧
    (sendPacket mainConfig rngLossy 9 lastPacketState).1.rngPos = lastPacketState.rngPos + 2 ∧
    (sendPacket mainConfig rngLossy 9 lastPacketState).2 =
      chance mainConfig.ackSuccessProb (rngLossy (lastPacketState.rngPos + 1)) ∧
    (chance mainConfig.ackSuccessProb (rngLossy (lastPacketState.rngPos + 1)) = true →
      (sendPacket mainConfig rngLossy 9 lastPacketState).1.senderBase = 9 + 1 ∧
      (sendPacket mainConfig rngLossy 9 lastPacketState).1.senderBase =
        mainConfig.totalPackets) ∧
    (chance mainConfig.ackSuccessProb (rngLossy (lastPacketState.rngPos + 1)) = false →
      (sendPacket mainConfig rngLossy 9 lastPacketState).1.senderBase =
        lastPacketState.senderBase) :=
  final_packet_acceptance mainConfig rngLossy 9 lastPacketState
    (by with_unfolding_all decide) (by with_unfolding_all decide)
    (by with_unfolding_all decide)

theorem windowLoop_break (cfg : Config) (rng : Rng) (fuel : Nat) (seq : Int) (s : State)
    (hc : seq < s.senderBase + cfg.senderWindowSize ∧ seq < cfg.totalPackets)
    (hb : (sendPacket cfg rng seq s).2 = true) :
    windowLoop cfg rng (fuel + 1) seq s = sendPacket cfg rng seq s := by
  simp only [windowLoop, hc, and_self, if_true, hb]

/-- C4: a delivered data segment with `seq != receiverExpected` is discarded
(`receiverExpected` unchanged) and exactly one acknowledgment attempt carrying the current
`receiverExpected` is made (one more draw, one "Sending ACK" line); if that acknowledgment
is delivered `senderBase` becomes `receiverExpected` and the `for` loop breaks at that
segment, otherwise `senderBase` is unchanged.  Scenario with the constants of `main`:
after a first round in which packets 0, 1, 2 are accepted and all three acknowledgments
are lost (`senderBase = 0`, `receiverExpected = 3`), the resent packet 0 is discarded and
the delivered acknowledgment sets `senderBase` to 3. -/
theorem discard_reannounces :
    (∀ (cfg : Config) (rng : Rng) (seq : Int) (s : State),
      chance cfg.dataSuccessProb (rng s.rngPos) = true → seq ≠ s.receiverExpected →
      (sendPacket cfg rng seq s).1.receiverExpected = s.receiverExpected ∧
      (sendPacket cfg rng seq s).1.rngPos = s.rngPos + 2 ∧
      packetLines cfg rng seq s =
        [.sending seq, .outOfOrder seq s.receiverExpected, .sendingAck s.receiverExpected,
          if chance cfg.ackSuccessProb (rng (s.rngPos + 1)) = true
          then .receivedAck s.receiverExpected else .ackLost s.receiverExpected] ∧
      (chance cfg.ackSuccessProb (rng (s.rngPos + 1)) = true →
        (sendPacket cfg rng seq s).1.senderBase = s.receiverExpected ∧
        (sendPacket cfg rng seq s).2 = true ∧
        ∀ fuel : Nat, seq < s.senderBase + cfg.senderWindowSize ∧ seq < cfg.totalPackets →
          windowLoop cfg rng (fuel + 1) seq s = sendPacket cfg rng seq s) ∧
      (chance cfg.ackSuccessProb (rng (s.rngPos + 1)) = false →
        (sendPacket cfg rng seq s).1.senderBase = s.senderBase ∧
        (sendPacket cfg rng seq s).2 = false)) ∧
    ((run mainConfig rngAckLoss 1).senderBase = 0 ∧
      (run mainConfig rngAckLoss 1).receiverExpected = 3 ∧
      timedOut mainConfig rngAckLoss (run mainConfig rngAckLoss 0) = true ∧
      (run mainConfig rngAckLoss 1).log =
        [.window 0 2,
          .sending 0, .receivedExpected 0, .sliding 0 1, .sendingAck 1, .ackLost 1,
          .sending 1, .receivedExpected 1, .sliding 1 2, .sendingAck 2, .ackLost 2,
          .sending 2, .receivedExpected 2, .sliding 2 3, .sendingAck 3, .ackLost 3,
          .timeout 0, .sleep 2000, .sleep 500] ∧
      packetLines mainConfig rngAckLoss 0 (run mainConfig rngAckLoss 1) =
        [.sending 0, .outOfOrder 0 3, .sendingAck 3, .receivedAck 3] ∧
      (sendPacket mainConfig rngAckLoss 0 (run mainConfig rngAckLoss 1)).1.senderBase = 3 ∧
      (run mainConfig rngAckLoss 2).senderBase = 3) := by
  refine ⟨?_, by with_unfolding_all decide⟩
  intro cfg rng seq s hd hne
  have hbrk := sendPacket_break cfg rng seq s
  refine ⟨?_, ?_, ?_, ?_, ?_⟩
  · rw [sendPacket_receiverExpected]; simp [hne]
  · rw [sendPacket_rngPos]; simp [hd]
  · rw [packetLines_eq]; simp [hd, hne]
  · intro ha
    have hb : (sendPacket cfg rng seq s).2 = true := by rw [hbrk]; simp [hd, ha]
    refine ⟨?_, hb, fun fuel hc => windowLoop_break cfg rng fuel seq s hc hb⟩
    rw [sendPacket_senderBase]; simp [hd, ha, hne]
  · intro ha
    refine ⟨?_, by rw [hbrk]; simp [hd, ha]⟩
    rw [sendPacket_senderBase]; simp [hd, ha]

theorem discard_reannounces_witness :
    (sendPacket mainConfig rngAckLoss 0 (run mainConfig rngAckLoss 1)).1.receiverExpected =
      (run mainConfig rngAckLoss 1).receiverExpected ∧
    (sendPacket mainConfig rngAckLoss 0 (run mainConfig rngAckLoss 1)).1.rngPos =
      (run mainConfig rngAckLoss 1).rngPos + 2 :=
  ⟨(discard_reannounces.1 mainConfig rngAckLoss 0 (run mainConfig rngAckLoss 1)
      (by with_unfolding_all decide) (by with_unfolding_all decide)).1,
   (discard_reannounces.1 mainConfig rngAckLoss 0 (run mainConfig rngAckLoss 1)
      (by with_unfolding_all decide) (by with_unfolding_all decide)).2.1⟩

theorem windowLoop_break_spec (cfg : Config) (rng : Rng) (fuel : Nat) :
    ∀ (seq : Int) (s : State), Inv cfg s → s.senderBase ≤ seq →
      (windowLoop cfg rng fuel seq s).2 = true →
      s.senderBase < (windowLoop cfg rng fuel seq s).1.senderBase ∨
      ((windowLoop cfg rng fuel seq s).1.senderBase = s.senderBase ∧
        (windowLoop cfg rng fuel seq s).1.receiverExpected = s.senderBase) := by
  induction fuel with
  | zero => intro seq s _ _ h; exact absurd h (by simp [windowLoop])
  | succ fuel ih =>
    intro seq s hi hseq
    obtain ⟨h0, h1, h2⟩ := hi
    simp only [windowLoop]
    split_ifs with hc hb
    · intro _
      have hB := sendPacket_senderBase cfg rng seq s
      have hE := sendPacket_receiverExpected cfg rng seq s
      have hb2 := sendPacket_break cfg rng seq s
      rw [hb] at hb2
      simp only [Bool.true_eq, Bool.and_eq_true] at hb2
      simp only [hb2.1, hb2.2, if_true, true_and] at hB hE
      rw [hB, hE]; split_ifs <;> omega
    · intro hr
      have hE := sendPacket_receiverExpected cfg rng seq s
      have hB' := sendPacket_noBreak cfg rng seq s hb
      have hE' : s.receiverExpected ≤ (sendPacket cfg rng seq s).1.receiverExpected ∧
          (sendPacket cfg rng seq s).1.receiverExpected + 1 ≤ cfg.totalPackets := by
        rw [hE]; split_ifs <;> omega
      have hi' : Inv cfg (sendPacket cfg rng seq s).1 := ⟨by omega, by omega, hE'.2⟩
      have := ih (seq + 1) (sendPacket cfg rng seq s).1 hi' (by omega) hr
      rw [hB'] at this
      exact this
    · intro h; exact absurd h (by simp)

/-- C5 (as stated, refuted): with the constants of `main` and the draws of `rngLossy`
(packet 0 lost, packet 1 delivered and discarded, its acknowledgment delivered), the first
round does not take the timeout branch, yet `senderBase` is 0 before and after it. -/
theorem timeout_iff_no_advance_counterexample :
    timedOut mainConfig rngLossy (run mainConfig rngLossy 0) = false ∧
    (run mainConfig rngLossy 0).senderBase = 0 ∧
    (run mainConfig rngLossy 1).senderBase = 0 ∧
    (run mainConfig rngLossy 1).log =
      [.window 0 2, .sending 0, .packetLost 0, .sending 1, .outOfOrder 1 0, .sendingAck 0,
        .receivedAck 0, .sleep 500] :=
  ⟨by with_unfolding_all decide, by decide, by with_unfolding_all decide,
    by with_unfolding_all rfl⟩

/-- C5 (amended): for every round started at a round boundary reachable from the initial
state with packets left, if the round takes the timeout branch then `senderBase` at its
end equals `senderBase` at its start; a round that does not take the timeout branch ends
with `senderBase` strictly greater than at its start, except when the delivered
acknowledgment re-announced `receiverExpected == senderBase`, in which case `senderBase`
is unchanged. -/
theorem timeout_no_advance (cfg : Config) (rng : Rng) (hp : 1 ≤ cfg.totalPackets) (n : Nat)
    (hlt : (run cfg rng n).senderBase < cfg.totalPackets) :
    (timedOut cfg rng (run cfg rng n) = true →
      (run cfg rng (n + 1)).senderBase = (run cfg rng n).senderBase) ∧
    (timedOut cfg rng (run cfg rng n) = false →
      (run cfg rng n).senderBase < (run cfg rng (n + 1)).senderBase ∨
      ((run cfg rng (n + 1)).senderBase = (run cfg rng n).senderBase ∧
        (run cfg rng (n + 1)).receiverExpected = (run cfg rng n).senderBase)) := by
  have hi := (run_good cfg rng hp n).inv hlt
  rw [run_succ, if_pos hlt, windowRound_senderBase, windowRound_receiverExpected]
  constructor
  · intro ht
    have : (sendWindow cfg rng (run cfg rng n)).2 = false := by
      simpa [timedOut] using ht
    exact (sendWindow_spec cfg rng _ hi).2.2.2.2 this
  · intro ht
    rw [timedOut_eq_false_iff] at ht
    exact windowLoop_break_spec cfg rng _ _ _ hi (le_refl _) ht

theorem timeout_no_advance_witness :
    (timedOut mainConfig rngAckLoss (run mainConfig rngAckLoss 0) = true →
      (run mainConfig rngAckLoss (0 + 1)).senderBase = (run mainConfig rngAckLoss 0).senderBase) ∧
    (timedOut mainConfig rngAckLoss (run mainConfig rngAckLoss 0) = false →
      (run mainConfig rngAckLoss 0).senderBase < (run mainConfig rngAckLoss (0 + 1)).senderBase ∨
      ((run mainConfig rngAckLoss (0 + 1)).senderBase = (run mainConfig rngAckLoss 0).senderBase ∧
        (run mainConfig rngAckLoss (0 + 1)).receiverExpected =
          (run mainConfig rngAckLoss 0).senderBase)) :=
  timeout_no_advance mainConfig rngAckLoss (by decide) 0 (by decide)

theorem run_rngPos_mono (cfg : Config) (rng : Rng) (hp : 1 ≤ cfg.totalPackets) (n m : Nat) :
    (run cfg rng n).rngPos ≤ (run cfg rng (n + m)).rngPos := by
  induction m with
  | zero => exact le_refl _
  | succ m ih => exact le_trans ih (run_step_mono cfg rng hp (n + m)).2.2

/-- One round on a channel that delivers the next two draws, from a round boundary with
packets left: the sender moves to `senderBase + 1` when the receiver expected
`senderBase`, and to `receiverExpected` when the receiver was ahead. -/
theorem run_succ_delivered (cfg : Config) (rng : Rng)
    (hp : 1 ≤ cfg.totalPackets) (hw : 1 ≤ cfg.senderWindowSize) (n : Nat)
    (hlt : (run cfg rng n).senderBase < cfg.totalPackets)
    (hd : chance cfg.dataSuccessProb (rng (run cfg rng n).rngPos) = true)
    (ha : chance cfg.ackSuccessProb (rng ((run cfg rng n).rngPos + 1)) = true) :
    (run cfg rng (n + 1)).senderBase =
      (if (run cfg rng n).senderBase = (run cfg rng n).receiverExpected
        then (run cfg rng n).senderBase + 1 else (run cfg rng n).receiverExpected) ∧
    (run cfg rng n).senderBase < (run cfg rng (n + 1)).senderBase := by
  have hi := (run_good cfg rng hp n).inv hlt
  obtain ⟨_, hB, _, _⟩ := sendWindow_first_break cfg rng (run cfg rng n) hw hlt hd ha
  rw [run_succ, if_pos hlt, windowRound_senderBase, hB]
  obtain ⟨_, h1, _⟩ := hi
  refine ⟨rfl, ?_⟩
  split_ifs <;> omega

theorem run_reaches_total (cfg : Config) (rng : Rng)
    (hp : 1 ≤ cfg.totalPackets) (hw : 1 ≤ cfg.senderWindowSize) (d : Nat) :
    ∀ n : Nat, cfg.totalPackets - (run cfg rng n).senderBase ≤ d →
      (∀ m : Nat, (run cfg rng (n + m)).senderBase < cfg.totalPackets →
        chance cfg.dataSuccessProb (rng (run cfg rng (n + m)).rngPos) = true ∧
        chance cfg.ackSuccessProb (rng ((run cfg rng (n + m)).rngPos + 1)) = true) →
      ∃ m : Nat, m ≤ d ∧ (run cfg rng (n + m)).senderBase = cfg.totalPackets := by
  induction d with
  | zero =>
    intro n hd _
    refine ⟨0, le_refl _, ?_⟩
    obtain ⟨_, _, h2, h3⟩ := run_good cfg rng hp n
    simp at hd
    show (run cfg rng n).senderBase = cfg.totalPackets
    omega
  | succ d ih =>
    intro n hd hcalls
    by_cases hlt : (run cfg rng n).senderBase < cfg.totalPackets
    · have hs := (run_succ_delivered cfg rng hp hw n hlt (hcalls 0 hlt).1 (hcalls 0 hlt).2).2
      obtain ⟨m, hm, he⟩ := ih (n + 1) (by push_cast at hd; omega)
        (fun k hk => by
          have e : n + 1 + k = n + (k + 1) := by omega
          rw [e] at hk ⊢
          exact hcalls (k + 1) hk)
      exact ⟨m + 1, by omega, by rw [← he]; congr 2; omega⟩
    · refine ⟨0, Nat.zero_le _, ?_⟩
      obtain ⟨_, _, h2, h3⟩ := run_good cfg rng hp n
      show (run cfg rng n).senderBase = cfg.totalPackets
      omega

/-- C6: from a round boundary reachable from the initial state with
`senderBase < totalPackets`, if all subsequent data and acknowledgment transmissions are
delivered (in each later round that runs, the data draw for `seq = senderBase` passes
`dataSuccessProb` and the acknowledgment draw that follows passes `ackSuccessProb`; draws
the run does not consume are not constrained), then every following round strictly
increases `senderBase`, `senderBase == totalPackets` is reached within at most
`totalPackets - senderBase` further rounds, and a sender behind the receiver
(`senderBase < receiverExpected`) is at `receiverExpected` after one round. -/
theorem delivered_tail_recovers (cfg : Config) (rng : Rng)
    (hp : 1 ≤ cfg.totalPackets) (hw : 1 ≤ cfg.senderWindowSize) (n : Nat)
    (hlt : (run cfg rng n).senderBase < cfg.totalPackets)
    (hcalls : ∀ m : Nat, (run cfg rng (n + m)).senderBase < cfg.totalPackets →
      chance cfg.dataSuccessProb (rng (run cfg rng (n + m)).rngPos) = true ∧
      chance cfg.ackSuccessProb (rng ((run cfg rng (n + m)).rngPos + 1)) = true) :
    (∀ m : Nat, (run cfg rng (n + m)).senderBase < cfg.totalPackets →
      (run cfg rng (n + m)).senderBase < (run cfg rng (n + m + 1)).senderBase) ∧
    (∃ m : Nat, (m : Int) ≤ cfg.totalPackets - (run cfg rng n).senderBase ∧
      (run cfg rng (n + m)).senderBase = cfg.totalPackets) ∧
    ((run cfg rng n).senderBase < (run cfg rng n).receiverExpected →
      (run cfg rng (n + 1)).senderBase = (run cfg rng n).receiverExpected) := by
  refine ⟨?_, ?_, ?_⟩
  · intro m hm
    exact (run_succ_delivered cfg rng hp hw (n + m) hm (hcalls m hm).1 (hcalls m hm).2).2
  · obtain ⟨m, hm, he⟩ := run_reaches_total cfg rng hp hw
      (cfg.totalPackets - (run cfg rng n).senderBase).toNat n
      (Int.self_le_toNat _) hcalls
    refine ⟨m, ?_, he⟩
    have : ((cfg.totalPackets - (run cfg rng n).senderBase).toNat : Int) =
        cfg.totalPackets - (run cfg rng n).senderBase := Int.toNat_of_nonneg (by omega)
    omega
  · intro hb
    rw [(run_succ_delivered cfg rng hp hw n hlt (hcalls 0 hlt).1 (hcalls 0 hlt).2).1,
      if_neg (by omega)]

theorem rngAckLoss_tail (i : Nat) (h : 6 ≤ i) :
    chance mainConfig.dataSuccessProb (rngAckLoss i) = true ∧
      chance mainConfig.ackSuccessProb (rngAckLoss i) = true := by
  have e : rngAckLoss i = 1 / 10 := by
    unfold rngAckLoss; rw [if_neg (by omega)]
  rw [e]
  constructor <;> with_unfolding_all decide

theorem rngAckLossHigh_calls (m : Nat) :
    chance mainConfig.dataSuccessProb
      (rngAckLossHigh (run mainConfig rngAckLossHigh (1 + m)).rngPos) = true ∧
    chance mainConfig.ackSuccessProb
      (rngAckLossHigh ((run mainConfig rngAckLossHigh (1 + m)).rngPos + 1)) = true := by
  have e6 : (run mainConfig rngAckLossHigh 1).rngPos = 6 := by with_unfolding_all decide
  exact calls_of_parity mainConfig rngAckLossHigh (by decide) 1 (by rw [e6])
    (fun i h6 hi => by
      rw [e6] at h6
      have e : rngAckLossHigh i = 7 / 10 := by
        unfold rngAckLossHigh; rw [if_neg (by omega), if_pos hi]
      rw [e]; with_unfolding_all decide)
    (fun i h6 hi => by
      rw [e6] at h6
      have e : rngAckLossHigh i = 1 / 10 := by
        unfold rngAckLossHigh; rw [if_neg (by omega), if_neg (by omega)]
      rw [e]; with_unfolding_all decide) m

theorem delivered_tail_recovers_witness :
    (run mainConfig rngAckLossHigh 1).senderBase = 0 ∧
    (run mainConfig rngAckLossHigh 1).receiverExpected = 3 ∧
    (∀ m : Nat, (run mainConfig rngAckLossHigh (1 + m)).senderBase < mainConfig.totalPackets →
      (run mainConfig rngAckLossHigh (1 + m)).senderBase <
        (run mainConfig rngAckLossHigh (1 + m + 1)).senderBase) ∧
    (∃ m : Nat,
      (m : Int) ≤ mainConfig.totalPackets - (run mainConfig rngAckLossHigh 1).senderBase ∧
      (run mainConfig rngAckLossHigh (1 + m)).senderBase = mainConfig.totalPackets) ∧
    ((run mainConfig rngAckLossHigh 1).senderBase <
        (run mainConfig rngAckLossHigh 1).receiverExpected →
      (run mainConfig rngAckLossHigh (1 + 1)).senderBase =
        (run mainConfig rngAckLossHigh 1).receiverExpected) :=
  ⟨by with_unfolding_all decide, by with_unfolding_all decide,
    delivered_tail_recovers mainConfig rngAckLossHigh (by decide) (by decide) 1
      (by with_unfolding_all decide) (fun m _ => rngAckLossHigh_calls m)⟩

/-- C7 (as stated, refuted): with the constants of `main` and the draws of `rngLossy`, in
the sixth round (`senderBase = 8`, `receiverExpected = 9` after packet 8) the delivered
packet 9 takes the accept branch (no discard line is printed), yet `receiverExpected` is
still 9 afterwards, not 10. -/
theorem accept_advances_counterexample :
    chance mainConfig.dataSuccessProb (rngLossy lastPacketState.rngPos) = true ∧
    lastPacketState.senderBase = 8 ∧
    lastPacketState.receiverExpected = 9 ∧
    packetLines mainConfig rngLossy 9 lastPacketState =
      [.sending 9, .receivedExpected 9, .sliding 9 10, .receivedAck 9] ∧
    (sendPacket mainConfig rngLossy 9 lastPacketState).1.receiverExpected = 9 ∧
    (sendPacket mainConfig rngLossy 9 lastPacketState).1.receiverExpected ≠
      lastPacketState.receiverExpected + 1 :=
  ⟨by with_unfolding_all decide, by with_unfolding_all decide, by with_unfolding_all decide,
    by with_unfolding_all rfl, by with_unfolding_all decide, by with_unfolding_all decide⟩

/-- C7 (amended): the accept branch is taken only when `seq == receiverExpected`; a
delivered segment is either discarded (`seq != receiverExpected`, `receiverExpected`
unchanged) or accepted, and an accepted segment advances `receiverExpected` by exactly 1
unless it is the last packet (`receiverExpected + 1 == totalPackets`), which leaves
`receiverExpected` unchanged. -/
theorem receiver_accepts_only_expected (cfg : Config) (rng : Rng) (seq : Int) (s : State)
    (hd : chance cfg.dataSuccessProb (rng s.rngPos) = true) :
    (Event.receivedExpected seq ∈ packetLines cfg rng seq s → seq = s.receiverExpected) ∧
    ((seq ≠ s.receiverExpected ∧
        Event.outOfOrder seq s.receiverExpected ∈ packetLines cfg rng seq s ∧
        Event.receivedExpected seq ∉ packetLines cfg rng seq s ∧
        (sendPacket cfg rng seq s).1.receiverExpected = s.receiverExpected) ∨
      (seq = s.receiverExpected ∧
        Event.receivedExpected seq ∈ packetLines cfg rng seq s ∧
        (∀ e, Event.outOfOrder seq e ∉ packetLines cfg rng seq s) ∧
        (sendPacket cfg rng seq s).1.receiverExpected =
          if s.receiverExpected + 1 < cfg.totalPackets then s.receiverExpected + 1
          else s.receiverExpected)) := by
  rw [packetLines_eq, sendPacket_receiverExpected]
  simp only [hd, if_true, true_and]
  by_cases hs : seq = s.receiverExpected
  · subst hs
    refine ⟨fun _ => rfl, Or.inr ⟨rfl, ?_, ?_, ?_⟩⟩
    · rw [if_pos rfl]; split_ifs <;> simp
    · intro e; rw [if_pos rfl]; split_ifs <;> simp
    · simp
  · refine ⟨?_, Or.inl ⟨hs, ?_, ?_, ?_⟩⟩
    · simp only [hs, if_false]; split_ifs <;> simp
    · simp [hs]
    · simp only [hs, if_false]; split_ifs <;> simp
    · simp [hs]

theorem receiver_accepts_only_expected_witness :
    (Event.receivedExpected 0 ∈ packetLines mainConfig rngAckLoss 0 (run mainConfig rngAckLoss 1) →
      0 = (run mainConfig rngAckLoss 1).receiverExpected) ∧
    (((0 : Int) ≠ (run mainConfig rngAckLoss 1).receiverExpected ∧
        Event.outOfOrder 0 (run mainConfig rngAckLoss 1).receiverExpected ∈
          packetLines mainConfig rngAckLoss 0 (run mainConfig rngAckLoss 1) ∧
        Event.receivedExpected 0 ∉ packetLines mainConfig rngAckLoss 0 (run mainConfig rngAckLoss 1) ∧
        (sendPacket mainConfig rngAckLoss 0 (run mainConfig rngAckLoss 1)).1.receiverExpected =
          (run mainConfig rngAckLoss 1).receiverExpected) ∨
      ((0 : Int) = (run mainConfig rngAckLoss 1).receiverExpected ∧
        Event.receivedExpected 0 ∈ packetLines mainConfig rngAckLoss 0 (run mainConfig rngAckLoss 1) ∧
        (∀ e, Event.outOfOrder 0 e ∉ packetLines mainConfig rngAckLoss 0 (run mainConfig rngAckLoss 1)) ∧
        (sendPacket mainConfig rngAckLoss 0 (run mainConfig rngAckLoss 1)).1.receiverExpected =
          if (run mainConfig rngAckLoss 1).receiverExpected + 1 < mainConfig.totalPackets
          then (run mainConfig rngAckLoss 1).receiverExpected + 1
          else (run mainConfig rngAckLoss 1).receiverExpected)) :=
  receiver_accepts_only_expected mainConfig rngAckLoss 0 (run mainConfig rngAckLoss 1)
    (by with_unfolding_all decide)

theorem windowLoop_false_of_not_cond (cfg : Config) (rng : Rng) (fuel : Nat) (seq : Int)
    (s : State)
    (hc : ¬ (seq < s.senderBase + cfg.senderWindowSize ∧ seq < cfg.totalPackets)) :
    windowLoop cfg rng fuel seq s = (s, false) := by
  cases fuel with
  | zero => rfl
  | succ f => simp only [windowLoop, hc, if_false]

/-- The `for` loop one iteration further: after `k` iterations from `seq`, the loop has
either left, or runs the body for `seq + k`. -/
theorem windowLoop_succ_right (cfg : Config) (rng : Rng) (k : Nat) :
    ∀ (seq : Int) (s : State),
      windowLoop cfg rng (k + 1) seq s =
        if (windowLoop cfg rng k seq s).2 = true then windowLoop cfg rng k seq s
        else if seq + k < (windowLoop cfg rng k seq s).1.senderBase + cfg.senderWindowSize ∧
            seq + k < cfg.totalPackets
          then sendPacket cfg rng (seq + k) (windowLoop cfg rng k seq s).1
          else windowLoop cfg rng k seq s := by
  induction k with
  | zero =>
    intro seq s
    have l : windowLoop cfg rng 1 seq s =
        if seq < s.senderBase + cfg.senderWindowSize ∧ seq < cfg.totalPackets
        then sendPacket cfg rng seq s else (s, false) := by
      simp only [windowLoop]
      split_ifs with h1 h2
      · rfl
      · have h3 : (sendPacket cfg rng seq s).2 = false := by simpa using h2
        exact Prod.ext rfl h3.symm
      · rfl
    have r : windowLoop cfg rng 0 seq s = (s, false) := rfl
    rw [l, r]
    simp
  | succ k ih =>
    intro seq s
    by_cases hc : seq < s.senderBase + cfg.senderWindowSize ∧ seq < cfg.totalPackets
    · by_cases hb : (sendPacket cfg rng seq s).2 = true
      · have e : ∀ f, windowLoop cfg rng (f + 1) seq s = sendPacket cfg rng seq s :=
          fun f => windowLoop_break cfg rng f seq s hc hb
        rw [e (k + 1), e k, if_pos hb]
      · have e : ∀ f, windowLoop cfg rng (f + 1) seq s =
            windowLoop cfg rng f (seq + 1) (sendPacket cfg rng seq s).1 := by
          intro f
          have hb' : (sendPacket cfg rng seq s).2 = false := by simpa using hb
          simp [windowLoop, hc, hb']
        rw [e (k + 1), e k, ih]
        have c : seq + 1 + (k : Int) = seq + ((k + 1 : Nat) : Int) := by push_cast; ring
        rw [c]
    · rw [windowLoop_false_of_not_cond cfg rng _ seq s hc,
        windowLoop_false_of_not_cond cfg rng _ seq s hc]
      have hc' : ¬ (seq + ((k : Int) + 1) < s.senderBase + cfg.senderWindowSize ∧
          seq + ((k : Int) + 1) < cfg.totalPackets) := by
        intro h
        apply hc
        constructor <;> omega
      simp [hc']

/-- The round one segment further. -/
theorem roundPrefix_succ (cfg : Config) (rng : Rng) (s : State) (k : Nat) :
    roundPrefix cfg rng s (k + 1) =
      if (roundPrefix cfg rng s k).2 = true then roundPrefix cfg rng s k
      else if s.senderBase + k < (roundPrefix cfg rng s k).1.senderBase + cfg.senderWindowSize ∧
          s.senderBase + k < cfg.totalPackets
        then sendPacket cfg rng (s.senderBase + k) (roundPrefix cfg rng s k).1
        else roundPrefix cfg rng s k :=
  windowLoop_succ_right cfg rng k s.senderBase _

theorem roundPrefix_receiverExpected (cfg : Config) (rng : Rng) (s : State)
    (g : Good cfg s) (k : Nat) :
    0 ≤ (roundPrefix cfg rng s k).1.receiverExpected ∧
    (roundPrefix cfg rng s k).1.receiverExpected ≤ cfg.totalPackets - 1 ∧
    s.receiverExpected ≤ (roundPrefix cfg rng s k).1.receiverExpected := by
  by_cases hlt : s.senderBase < cfg.totalPackets
  · obtain ⟨g', _, e, _⟩ := roundPrefix_spec cfg rng s (g.inv hlt) k
    obtain ⟨_, g1, g2, _⟩ := g'
    exact ⟨g1, by omega, e⟩
  · have e : roundPrefix cfg rng s k = (s.say (.window s.senderBase
        (min (s.senderBase + cfg.senderWindowSize - 1) (cfg.totalPackets - 1))), false) :=
      windowLoop_false_of_not_cond cfg rng k _ _ (fun c => hlt c.2)
    rw [e]
    obtain ⟨_, g1, g2, _⟩ := g
    exact ⟨g1, by simp only [say_receiverExpected]; omega, le_refl _⟩

theorem windowLoop_all_lost (cfg : Config) (rng : Rng)
    (hlost : ∀ i, chance cfg.dataSuccessProb (rng i) = false) (fuel : Nat) :
    ∀ (seq : Int) (s : State),
      (windowLoop cfg rng fuel seq s).2 = false ∧
      (windowLoop cfg rng fuel seq s).1.senderBase = s.senderBase ∧
      (windowLoop cfg rng fuel seq s).1.receiverExpected = s.receiverExpected := by
  induction fuel with
  | zero => intro seq s; exact ⟨rfl, rfl, rfl⟩
  | succ fuel ih =>
    intro seq s
    have hb : (sendPacket cfg rng seq s).2 = false := by
      rw [sendPacket_break, hlost]; rfl
    have hB : (sendPacket cfg rng seq s).1.senderBase = s.senderBase := by
      rw [sendPacket_senderBase, hlost]; simp
    have hE : (sendPacket cfg rng seq s).1.receiverExpected = s.receiverExpected := by
      rw [sendPacket_receiverExpected, hlost]; simp
    simp only [windowLoop]
    split_ifs with hc hbt
    · rw [hb] at hbt; exact absurd hbt (by simp)
    · obtain ⟨a, b, c⟩ := ih (seq + 1) (sendPacket cfg rng seq s).1
      exact ⟨a, by rw [b, hB], by rw [c, hE]⟩
    · exact ⟨rfl, rfl, rfl⟩

theorem timedOut_all_lost (cfg : Config) (rng : Rng)
    (hlost : ∀ i, chance cfg.dataSuccessProb (rng i) = false) (s : State) :
    timedOut cfg rng s = true := by
  unfold timedOut sendWindow
  rw [(windowLoop_all_lost cfg rng hlost _ _ _).1]; rfl

/-- C9: with at least one packet, if every data transmission is lost then after any
number `n` of rounds `senderBase` and `receiverExpected` are still 0, each of those `n`
rounds took the timeout branch, and the loop condition `senderBase < totalPackets` still
holds, so the run has not reached the terminated state. -/
theorem data_always_lost (cfg : Config) (rng : Rng) (hp : 1 ≤ cfg.totalPackets)
    (hlost : ∀ i, chance cfg.dataSuccessProb (rng i) = false) (n : Nat) :
    (run cfg rng n).senderBase = 0 ∧
    (run cfg rng n).receiverExpected = 0 ∧
    (∀ k : Nat, k < n → timedOut cfg rng (run cfg rng k) = true) ∧
    (run cfg rng n).senderBase < cfg.totalPackets ∧
    terminated cfg (run cfg rng n) = false := by
  have key : (run cfg rng n).senderBase = 0 ∧ (run cfg rng n).receiverExpected = 0 := by
    induction n with
    | zero => exact ⟨rfl, rfl⟩
    | succ n ih =>
      have hlt : (run cfg rng n).senderBase < cfg.totalPackets := by rw [ih.1]; omega
      rw [run_succ, if_pos hlt, windowRound_senderBase, windowRound_receiverExpected]
      unfold sendWindow
      obtain ⟨_, b, c⟩ := windowLoop_all_lost cfg rng hlost cfg.senderWindowSize.toNat
        (run cfg rng n).senderBase ((run cfg rng n).say (.window (run cfg rng n).senderBase
          (min ((run cfg rng n).senderBase + cfg.senderWindowSize - 1) (cfg.totalPackets - 1))))
      exact ⟨b.trans ih.1, c.trans ih.2⟩
  have hlt : (run cfg rng n).senderBase < cfg.totalPackets := by rw [key.1]; omega
  exact ⟨key.1, key.2, fun k _ => timedOut_all_lost cfg rng hlost _, hlt,
    by simp [terminated, hlt]⟩

theorem data_always_lost_witness :
    (run noDataConfig rngZero 7).senderBase = 0 ∧
    (run noDataConfig rngZero 7).receiverExpected = 0 ∧
    (∀ k : Nat, k < 7 → timedOut noDataConfig rngZero (run noDataConfig rngZero k) = true) ∧
    (run noDataConfig rngZero 7).senderBase < noDataConfig.totalPackets ∧
    terminated noDataConfig (run noDataConfig rngZero 7) = false :=
  data_always_lost noDataConfig rngZero (by decide)
    (fun _ => (by decide : chance 0 0 = false)) 7

/-- C10: when a delivered segment is accepted in order (`seq == receiverExpected`,
`receiverExpected + 1 < totalPackets`) and its acknowledgment is delivered, `senderBase`
becomes `seq + 1`, which is the acknowledged value, the receiver's new
`receiverExpected`, and the `for` loop breaks at that segment. -/
theorem in_order_ack_advances (cfg : Config) (rng : Rng) (seq : Int) (s : State)
    (hd : chance cfg.dataSuccessProb (rng s.rngPos) = true)
    (hseq : seq = s.receiverExpected) (hnf : s.receiverExpected + 1 < cfg.totalPackets)
    (ha : chance cfg.ackSuccessProb (rng (s.rngPos + 1)) = true) :
    (sendPacket cfg rng seq s).1.senderBase = seq + 1 ∧
    (sendPacket cfg rng seq s).1.receiverExpected = s.receiverExpected + 1 ∧
    (sendPacket cfg rng seq s).1.senderBase = (sendPacket cfg rng seq s).1.receiverExpected ∧
    packetLines cfg rng seq s =
      [.sending seq, .receivedExpected seq,
        .sliding s.receiverExpected (s.receiverExpected + 1),
        .sendingAck (sendPacket cfg rng seq s).1.receiverExpected,
        .receivedAck (sendPacket cfg rng seq s).1.receiverExpected] ∧
    (sendPacket cfg rng seq s).2 = true ∧
    (∀ fuel : Nat, seq < s.senderBase + cfg.senderWindowSize ∧ seq < cfg.totalPackets →
      windowLoop cfg rng (fuel + 1) seq s = sendPacket cfg rng seq s) := by
  have hB : (sendPacket cfg rng seq s).1.senderBase = seq + 1 := by
    rw [sendPacket_senderBase]; simp [hd, ha, hseq]
  have hE : (sendPacket cfg rng seq s).1.receiverExpected = s.receiverExpected + 1 := by
    rw [sendPacket_receiverExpected]; simp [hd, hseq, hnf]
  have hb : (sendPacket cfg rng seq s).2 = true := by
    rw [sendPacket_break]; simp [hd, ha]
  refine ⟨hB, hE, by rw [hB, hE, hseq], ?_, hb,
    fun fuel hc => windowLoop_break cfg rng fuel seq s hc hb⟩
  rw [hE, packetLines_eq]
  simp [hd, ha, hseq, hnf]

theorem in_order_ack_advances_witness :
    (sendPacket mainConfig rngAckLoss 3 (run mainConfig rngAckLoss 2)).1.senderBase = 3 + 1 ∧
    (sendPacket mainConfig rngAckLoss 3 (run mainConfig rngAckLoss 2)).1.receiverExpected =
      (run mainConfig rngAckLoss 2).receiverExpected + 1 ∧
    (sendPacket mainConfig rngAckLoss 3 (run mainConfig rngAckLoss 2)).1.senderBase =
      (sendPacket mainConfig rngAckLoss 3 (run mainConfig rngAckLoss 2)).1.receiverExpected ∧
    packetLines mainConfig rngAckLoss 3 (run mainConfig rngAckLoss 2) =
      [.sending 3, .receivedExpected 3,
        .sliding (run mainConfig rngAckLoss 2).receiverExpected
          ((run mainConfig rngAckLoss 2).receiverExpected + 1),
        .sendingAck (sendPacket mainConfig rngAckLoss 3 (run mainConfig rngAckLoss 2)).1.receiverExpected,
        .receivedAck (sendPacket mainConfig rngAckLoss 3 (run mainConfig rngAckLoss 2)).1.receiverExpected] ∧
    (sendPacket mainConfig rngAckLoss 3 (run mainConfig rngAckLoss 2)).2 = true ∧
    (∀ fuel : Nat,
      (3 : Int) < (run mainConfig rngAckLoss 2).senderBase + mainConfig.senderWindowSize ∧
        (3 : Int) < mainConfig.totalPackets →
      windowLoop mainConfig rngAckLoss (fuel + 1) 3 (run mainConfig rngAckLoss 2) =
        sendPacket mainConfig rngAckLoss 3 (run mainConfig rngAckLoss 2)) :=
  in_order_ack_advances mainConfig rngAckLoss 3 (run mainConfig rngAckLoss 2)
    (by with_unfolding_all decide) (by with_unfolding_all decide)
    (by with_unfolding_all decide) (by with_unfolding_all decide)

/-! ## The channel -/

/-- C12: `chance` reports delivery exactly when the drawn value is strictly below the
probability; so for a draw in `[0,1)` probability 1 always delivers and probability 0
never does, and a draw delivered under `p` is delivered under every `q ≥ p` (exact
rationals in place of doubles). -/
theorem chance_threshold (p q draw : ℚ) :
    (chance p draw = true ↔ draw < p) ∧
    (0 ≤ draw → draw < 1 → chance 1 draw = true ∧ chance 0 draw = false) ∧
    (p ≤ q → chance p draw = true → chance q draw = true) := by
  unfold chance
  refine ⟨by simp, fun h0 h1 => ⟨by simpa using h1, by simpa using h0⟩, fun hpq h => ?_⟩
  simp only [decide_eq_true_eq] at h ⊢
  exact lt_of_lt_of_le h hpq

theorem chance_threshold_witness :
    (chance (1 / 2) (1 / 10) = true ↔ (1 / 10 : ℚ) < 1 / 2) ∧
    ((0 : ℚ) ≤ 1 / 10 → (1 / 10 : ℚ) < 1 → chance 1 (1 / 10) = true ∧ chance 0 (1 / 10) = false) ∧
    ((1 / 2 : ℚ) ≤ 4 / 5 → chance (1 / 2) (1 / 10) = true → chance (4 / 5) (1 / 10) = true) ∧
    chance (4 / 5) (1 / 10) = true :=
  ⟨(chance_threshold (1 / 2) (4 / 5) (1 / 10)).1,
    (chance_threshold (1 / 2) (4 / 5) (1 / 10)).2.1,
    (chance_threshold (1 / 2) (4 / 5) (1 / 10)).2.2,
    (chance_threshold (1 / 2) (4 / 5) (1 / 10)).2.2 (by with_unfolding_all decide)
      (by with_unfolding_all decide)⟩

/-- C14: processing one segment leaves `senderBase` unchanged whenever the data
transmission is lost or the acknowledgment is lost; when the data transmission is lost,
`receiverExpected` is unchanged as well, the body does not break, and exactly one draw (the
data draw, no acknowledgment draw) is consumed. -/
theorem lost_leaves_senderBase (cfg : Config) (rng : Rng) (seq : Int) (s : State) :
    (chance cfg.dataSuccessProb (rng s.rngPos) = false →
      (sendPacket cfg rng seq s).1.senderBase = s.senderBase ∧
      (sendPacket cfg rng seq s).1.receiverExpected = s.receiverExpected ∧
      (sendPacket cfg rng seq s).1.rngPos = s.rngPos + 1 ∧
      (sendPacket cfg rng seq s).2 = false ∧
      packetLines cfg rng seq s = [.sending seq, .packetLost seq]) ∧
    (chance cfg.dataSuccessProb (rng s.rngPos) = true →
      chance cfg.ackSuccessProb (rng (s.rngPos + 1)) = false →
      (sendPacket cfg rng seq s).1.senderBase = s.senderBase ∧
      (sendPacket cfg rng seq s).1.rngPos = s.rngPos + 2 ∧
      (sendPacket cfg rng seq s).2 = false) := by
  rw [sendPacket_senderBase, sendPacket_receiverExpected, sendPacket_rngPos, sendPacket_break,
    packetLines_eq]
  constructor
  · intro hd; simp [hd]
  · intro hd ha; simp [hd, ha]

theorem lost_leaves_senderBase_witness :
    (sendPacket mainConfig rngLossy 0 initState).1.senderBase = initState.senderBase ∧
    (sendPacket mainConfig rngLossy 0 initState).1.receiverExpected = initState.receiverExpected ∧
    (sendPacket mainConfig rngLossy 0 initState).1.rngPos = initState.rngPos + 1 ∧
    (sendPacket mainConfig rngLossy 0 initState).2 = false ∧
    packetLines mainConfig rngLossy 0 initState = [.sending 0, .packetLost 0] :=
  (lost_leaves_senderBase mainConfig rngLossy 0 initState).1 (by with_unfolding_all decide)

/-! ## Dependence on the draws -/

theorem sendPacket_congr (cfg : Config) (rng rng2 : Rng) (seq : Int) (s : State)
    (h0 : rng2 s.rngPos = rng s.rngPos)
    (h1 : chance cfg.dataSuccessProb (rng s.rngPos) = true →
      rng2 (s.rngPos + 1) = rng (s.rngPos + 1)) :
    sendPacket cfg rng2 seq s = sendPacket cfg rng seq s := by
  unfold sendPacket
  simp only [State.say, State.draw, h0]
  by_cases hd : chance cfg.dataSuccessProb (rng s.rngPos) = true
  · have e := h1 hd
    by_cases hq : seq = s.receiverExpected
    · by_cases hf : s.receiverExpected + 1 < cfg.totalPackets
      · simp [hd, hq, hf, e]
      · simp [hd, hq, hf, e]
    · simp [hd, hq, e]
  · simp [hd]

theorem sendPacket_rngPos_le (cfg : Config) (rng : Rng) (seq : Int) (s : State) :
    s.rngPos < (sendPacket cfg rng seq s).1.rngPos := by
  rw [sendPacket_rngPos]; split_ifs <;> omega

theorem windowLoop_rngPos_le (cfg : Config) (rng : Rng) (fuel : Nat) :
    ∀ (seq : Int) (s : State), s.rngPos ≤ (windowLoop cfg rng fuel seq s).1.rngPos := by
  induction fuel with
  | zero => intro seq s; exact le_refl _
  | succ fuel ih =>
    intro seq s
    simp only [windowLoop]
    split_ifs
    · exact le_of_lt (sendPacket_rngPos_le cfg rng seq s)
    · exact le_trans (le_of_lt (sendPacket_rngPos_le cfg rng seq s)) (ih _ _)
    · exact le_refl _

theorem sendPacket_congr_of_lt (cfg : Config) (rng rng2 : Rng) (seq : Int) (s : State)
    (N : Nat) (hN : (sendPacket cfg rng seq s).1.rngPos ≤ N)
    (hag : ∀ i, i < N → rng2 i = rng i) :
    sendPacket cfg rng2 seq s = sendPacket cfg rng seq s := by
  have hp := sendPacket_rngPos cfg rng seq s
  apply sendPacket_congr
  · apply hag
    have := sendPacket_rngPos_le cfg rng seq s
    omega
  · intro hd
    apply hag
    rw [hp, if_pos hd] at hN
    omega

theorem windowLoop_congr (cfg : Config) (rng rng2 : Rng) (N : Nat)
    (hag : ∀ i, i < N → rng2 i = rng i) (fuel : Nat) :
    ∀ (seq : Int) (s : State), (windowLoop cfg rng fuel seq s).1.rngPos ≤ N →
      windowLoop cfg rng2 fuel seq s = windowLoop cfg rng fuel seq s := by
  induction fuel with
  | zero => intro seq s _; rfl
  | succ fuel ih =>
    intro seq s hN
    by_cases hc : seq < s.senderBase + cfg.senderWindowSize ∧ seq < cfg.totalPackets
    · by_cases hb : (sendPacket cfg rng seq s).2 = true
      · rw [windowLoop_break cfg rng fuel seq s hc hb] at hN
        have e := sendPacket_congr_of_lt cfg rng rng2 seq s N hN hag
        rw [windowLoop_break cfg rng fuel seq s hc hb,
          windowLoop_break cfg rng2 fuel seq s hc (by rw [e]; exact hb), e]
      · have hb' : (sendPacket cfg rng seq s).2 = false := by simpa using hb
        have e1 : windowLoop cfg rng (fuel + 1) seq s =
            windowLoop cfg rng fuel (seq + 1) (sendPacket cfg rng seq s).1 := by
          simp [windowLoop, hc, hb']
        rw [e1] at hN
        have hle := windowLoop_rngPos_le cfg rng fuel (seq + 1) (sendPacket cfg rng seq s).1
        have e := sendPacket_congr_of_lt cfg rng rng2 seq s N (le_trans hle hN) hag
        have e2 : windowLoop cfg rng2 (fuel + 1) seq s =
            windowLoop cfg rng2 fuel (seq + 1) (sendPacket cfg rng2 seq s).1 := by
          simp [windowLoop, hc, e, hb']
        rw [e1, e2, e]
        exact ih _ _ hN
    · rw [windowLoop_false_of_not_cond cfg rng _ seq s hc,
        windowLoop_false_of_not_cond cfg rng2 _ seq s hc]

theorem sendWindow_congr (cfg : Config) (rng rng2 : Rng) (s : State) (N : Nat)
    (hN : (sendWindow cfg rng s).1.rngPos ≤ N) (hag : ∀ i, i < N → rng2 i = rng i) :
    sendWindow cfg rng2 s = sendWindow cfg rng s :=
  windowLoop_congr cfg rng rng2 N hag _ _ _ hN

theorem windowRound_congr (cfg : Config) (rng rng2 : Rng) (s : State) (N : Nat)
    (hN : (windowRound cfg rng s).rngPos ≤ N) (hag : ∀ i, i < N → rng2 i = rng i) :
    windowRound cfg rng2 s = windowRound cfg rng s := by
  rw [windowRound_rngPos] at hN
  unfold windowRound
  rw [sendWindow_congr cfg rng rng2 s N hN hag]

theorem windowRound_rngPos_le (cfg : Config) (rng : Rng) (s : State) :
    s.rngPos ≤ (windowRound cfg rng s).rngPos := by
  rw [windowRound_rngPos]
  exact windowLoop_rngPos_le cfg rng cfg.senderWindowSize.toNat s.senderBase
    (s.say (.window s.senderBase
      (min (s.senderBase + cfg.senderWindowSize - 1) (cfg.totalPackets - 1))))

theorem run_rngPos_le_succ (cfg : Config) (rng : Rng) (n : Nat) :
    (run cfg rng n).rngPos ≤ (run cfg rng (n + 1)).rngPos := by
  rw [run_succ]
  split_ifs
  · exact windowRound_rngPos_le cfg rng _
  · exact le_refl _

theorem run_congr (cfg : Config) (rng rng2 : Rng) (N : Nat)
    (hag : ∀ i, i < N → rng2 i = rng i) (n : Nat) :
    (run cfg rng n).rngPos ≤ N → run cfg rng2 n = run cfg rng n := by
  induction n with
  | zero => intro _; rfl
  | succ n ih =>
    intro hN
    have e := ih (le_trans (run_rngPos_le_succ cfg rng n) hN)
    rw [run_succ] at hN ⊢
    rw [run_succ, e]
    split_ifs with h
    · rw [if_pos h] at hN
      exact windowRound_congr cfg rng rng2 _ N hN hag
    · rfl

theorem run_rngPos_le (cfg : Config) (rng : Rng) (m n : Nat) (h : m ≤ n) :
    (run cfg rng m).rngPos ≤ (run cfg rng n).rngPos := by
  induction n with
  | zero =>
    have : m = 0 := by omega
    rw [this]
  | succ n ih =>
    by_cases e : m = n + 1
    · rw [e]
    · exact le_trans (ih (by omega)) (run_rngPos_le_succ cfg rng n)

theorem sendWindow_of_done (cfg : Config) (rng : Rng) (s : State)
    (h : ¬ s.senderBase < cfg.totalPackets) :
    sendWindow cfg rng s = (s.say (.window s.senderBase
      (min (s.senderBase + cfg.senderWindowSize - 1) (cfg.totalPackets - 1))), false) :=
  windowLoop_false_of_not_cond cfg rng _ _ _ (fun c => h c.2)

/-- C11: the run is a function of the configuration and of the draws it consumes.  Two
runs with the same configuration whose draw streams agree on the draws consumed during
the first `n` rounds go through the same states `(senderBase, receiverExpected)`, print
the same narration (accept, discard, acknowledgment received or lost, timeout) and take
the timeout branch in the same rounds; in particular this holds for identical streams. -/
theorem run_deterministic (cfg : Config) (rng rng2 : Rng) (n : Nat)
    (hag : ∀ i, i < (run cfg rng n).rngPos → rng2 i = rng i) :
    (∀ m : Nat, m ≤ n →
      run cfg rng2 m = run cfg rng m ∧
      (run cfg rng2 m).log = (run cfg rng m).log ∧
      (run cfg rng2 m).senderBase = (run cfg rng m).senderBase ∧
      (run cfg rng2 m).receiverExpected = (run cfg rng m).receiverExpected) ∧
    (∀ m : Nat, m < n →
      timedOut cfg rng2 (run cfg rng2 m) = timedOut cfg rng (run cfg rng m)) := by
  have key : ∀ m : Nat, m ≤ n → run cfg rng2 m = run cfg rng m :=
    fun m hm => run_congr cfg rng rng2 _ hag m (run_rngPos_le cfg rng m n hm)
  refine ⟨fun m hm => ?_, fun m hm => ?_⟩
  · have e := key m hm
    exact ⟨e, by rw [e], by rw [e], by rw [e]⟩
  · rw [key m (le_of_lt hm)]
    by_cases hlt : (run cfg rng m).senderBase < cfg.totalPackets
    · have hN : (sendWindow cfg rng (run cfg rng m)).1.rngPos ≤ (run cfg rng n).rngPos := by
        have h1 := run_rngPos_le cfg rng (m + 1) n hm
        rw [run_succ, if_pos hlt, windowRound_rngPos] at h1
        exact h1
      unfold timedOut
      rw [sendWindow_congr cfg rng rng2 _ _ hN hag]
    · unfold timedOut
      rw [sendWindow_of_done cfg rng _ hlt, sendWindow_of_done cfg rng2 _ hlt]

theorem run_deterministic_witness :
    (∀ m : Nat, m ≤ 2 →
      run mainConfig rngAckLossCut m = run mainConfig rngAckLoss m ∧
      (run mainConfig rngAckLossCut m).log = (run mainConfig rngAckLoss m).log ∧
      (run mainConfig rngAckLossCut m).senderBase = (run mainConfig rngAckLoss m).senderBase ∧
      (run mainConfig rngAckLossCut m).receiverExpected =
        (run mainConfig rngAckLoss m).receiverExpected) ∧
    (∀ m : Nat, m < 2 →
      timedOut mainConfig rngAckLossCut (run mainConfig rngAckLossCut m) =
        timedOut mainConfig rngAckLoss (run mainConfig rngAckLoss m)) :=
  run_deterministic mainConfig rngAckLoss rngAckLossCut 2 (fun i hi => by
    have e : (run mainConfig rngAckLoss 2).rngPos = 8 := by with_unfolding_all decide
    rw [e] at hi
    simp [rngAckLossCut, hi])

/-! ## The segments attempted in a round -/

theorem sentSeqs_append (l1 l2 : List Event) :
    sentSeqs (l1 ++ l2) = sentSeqs l1 ++ sentSeqs l2 := by
  unfold sentSeqs; exact List.filterMap_append _ _ _

theorem sentSeqs_sendPacket (cfg : Config) (rng : Rng) (seq : Int) (s : State) :
    sentSeqs (sendPacket cfg rng seq s).1.log = sentSeqs s.log ++ [seq] := by
  rw [sendPacket_log, sentSeqs_append]
  congr 1
  split_ifs <;> simp [sentSeqs]

theorem roundPrefix_zero (cfg : Config) (rng : Rng) (s : State) :
    roundPrefix cfg rng s 0 = (s.say (.window s.senderBase
      (min (s.senderBase + cfg.senderWindowSize - 1) (cfg.totalPackets - 1))), false) := rfl

/-- While the `for` loop has not broken, after `k` iterations `senderBase` is untouched and
the segments attempted are the first `min k windowCount` of the window. -/
theorem roundPrefix_noBreak (cfg : Config) (rng : Rng) (s : State) (k : Nat) :
    (roundPrefix cfg rng s k).2 = false →
      (roundPrefix cfg rng s k).1.senderBase = s.senderBase ∧
      sentSeqs (roundPrefix cfg rng s k).1.log =
        sentSeqs s.log ++ (List.range (min k (windowCount cfg s))).map (fun i : Nat => s.senderBase + (i : Int)) := by
  induction k with
  | zero =>
    intro _
    rw [roundPrefix_zero]
    refine ⟨rfl, ?_⟩
    show sentSeqs (s.log ++ [_]) = _
    rw [sentSeqs_append]
    simp [sentSeqs]
  | succ k ih =>
    rw [roundPrefix_succ]
    by_cases hb : (roundPrefix cfg rng s k).2 = true
    · rw [if_pos hb]; intro h; rw [hb] at h; exact absurd h (by simp)
    · have hb' : (roundPrefix cfg rng s k).2 = false := by simpa using hb
      obtain ⟨hB, hS⟩ := ih hb'
      rw [if_neg hb, hB]
      by_cases hc : s.senderBase + (k : Int) < s.senderBase + cfg.senderWindowSize ∧
          s.senderBase + (k : Int) < cfg.totalPackets
      · rw [if_pos hc]
        intro h
        have hk : k < windowCount cfg s := by
          unfold windowCount; omega
        refine ⟨?_, ?_⟩
        · rw [sendPacket_noBreak _ _ _ _ (by rw [h]; simp), hB]
        · rw [sentSeqs_sendPacket, hS, Nat.min_eq_left (le_of_lt hk),
            Nat.min_eq_left (by omega : k + 1 ≤ windowCount cfg s), List.range_succ,
            List.map_append, List.append_assoc]
          rfl
      · rw [if_neg hc]
        intro _
        have hk : windowCount cfg s ≤ k := by
          unfold windowCount; omega
        rw [Nat.min_eq_right (by omega : windowCount cfg s ≤ k + 1)]
        rw [Nat.min_eq_right hk] at hS
        exact ⟨hB, hS⟩

theorem roundPrefix_stable (cfg : Config) (rng : Rng) (s : State) (k : Nat)
    (h : (roundPrefix cfg rng s k).2 = true) (m : Nat) :
    roundPrefix cfg rng s (k + m) = roundPrefix cfg rng s k := by
  induction m with
  | zero => rfl
  | succ m ih =>
    have e : k + (m + 1) = (k + m) + 1 := by omega
    rw [e, roundPrefix_succ, ih, if_pos h]

/-- When the `for` loop has broken within `k` iterations, it broke at one iteration `j < k`:
the loop had not broken before, segment `senderBase + j` is in the window, its body ended
in `break`, and the loop's result is that body's result. -/
theorem roundPrefix_break_index (cfg : Config) (rng : Rng) (s : State) (k : Nat) :
    (roundPrefix cfg rng s k).2 = true →
      ∃ j : Nat, j < k ∧ j < windowCount cfg s ∧ (roundPrefix cfg rng s j).2 = false ∧
        (sendPacket cfg rng (s.senderBase + j) (roundPrefix cfg rng s j).1).2 = true ∧
        roundPrefix cfg rng s k =
          sendPacket cfg rng (s.senderBase + j) (roundPrefix cfg rng s j).1 := by
  induction k with
  | zero => intro h; rw [roundPrefix_zero] at h; exact absurd h (by simp)
  | succ k ih =>
    intro h
    by_cases hb : (roundPrefix cfg rng s k).2 = true
    · obtain ⟨j, hj, hw, h1, h2, h3⟩ := ih hb
      refine ⟨j, by omega, hw, h1, h2, ?_⟩
      rw [roundPrefix_stable cfg rng s k hb 1, h3]
    · have hb' : (roundPrefix cfg rng s k).2 = false := by simpa using hb
      have hB := (roundPrefix_noBreak cfg rng s k hb').1
      rw [roundPrefix_succ, if_neg hb] at h
      by_cases hc : s.senderBase + (k : Int) <
            (roundPrefix cfg rng s k).1.senderBase + cfg.senderWindowSize ∧
          s.senderBase + (k : Int) < cfg.totalPackets
      · rw [if_pos hc] at h
        refine ⟨k, by omega, ?_, hb', h, ?_⟩
        · rw [hB] at hc; unfold windowCount; omega
        · rw [roundPrefix_succ, if_neg hb, if_pos hc]
      · rw [if_neg hc] at h; exact absurd h hb

theorem roundPrefix_false_of_le (cfg : Config) (rng : Rng) (s : State) (i j : Nat)
    (hij : i ≤ j) (h : (roundPrefix cfg rng s j).2 = false) :
    (roundPrefix cfg rng s i).2 = false := by
  by_contra hc
  have ht : (roundPrefix cfg rng s i).2 = true := by simpa using hc
  have e := roundPrefix_stable cfg rng s i ht (j - i)
  rw [show i + (j - i) = j by omega] at e
  rw [e, ht] at h
  exact absurd h (by simp)

theorem windowCount_le (cfg : Config) (s : State) :
    windowCount cfg s ≤ cfg.senderWindowSize.toNat := by
  unfold windowCount; omega

theorem sendWindow_eq_roundPrefix (cfg : Config) (rng : Rng) (s : State) :
    sendWindow cfg rng s = roundPrefix cfg rng s cfg.senderWindowSize.toNat := rfl

/-- The body run for a segment of the window before the loop has broken is the next step
of the round. -/
theorem roundPrefix_step (cfg : Config) (rng : Rng) (s : State) (i : Nat)
    (hi : i < windowCount cfg s) (h : (roundPrefix cfg rng s i).2 = false) :
    roundPrefix cfg rng s (i + 1) =
      sendPacket cfg rng (s.senderBase + i) (roundPrefix cfg rng s i).1 := by
  have hB := (roundPrefix_noBreak cfg rng s i h).1
  have hc : s.senderBase + (i : Int) <
        (roundPrefix cfg rng s i).1.senderBase + cfg.senderWindowSize ∧
      s.senderBase + (i : Int) < cfg.totalPackets := by
    rw [hB]; unfold windowCount at hi; omega
  rw [roundPrefix_succ, if_neg (by rw [h]; simp), if_pos hc]

/-- C13: in the round started in state `s` (`senderBase = b`), the data segments attempted
are, in ascending order and each once, `b, b+1, ..., b+j`, where `b+j` is the first
sequence number of the window `[b, min (b + senderWindowSize) totalPackets)` whose data and
acknowledgment are both delivered; when no acknowledgment is delivered in the round they
are all of the window.  Nothing after `b+j` is attempted, and the round's result is the
same under any draw stream that agrees on the draws the round consumed. -/
theorem round_attempts (cfg : Config) (rng : Rng) (s : State) :
    ((sendWindow cfg rng s).2 = false →
      sentSeqs (sendWindow cfg rng s).1.log =
        sentSeqs s.log ++
          (List.range (windowCount cfg s)).map (fun i : Nat => s.senderBase + (i : Int))) ∧
    ((sendWindow cfg rng s).2 = true →
      ∃ j : Nat, j < windowCount cfg s ∧
        sentSeqs (sendWindow cfg rng s).1.log =
          sentSeqs s.log ++
            (List.range (j + 1)).map (fun i : Nat => s.senderBase + (i : Int)) ∧
        chance cfg.dataSuccessProb (rng (roundPrefix cfg rng s j).1.rngPos) = true ∧
        chance cfg.ackSuccessProb (rng ((roundPrefix cfg rng s j).1.rngPos + 1)) = true ∧
        (∀ i : Nat, i < j →
          (sendPacket cfg rng (s.senderBase + i) (roundPrefix cfg rng s i).1).2 = false) ∧
        sendWindow cfg rng s =
          sendPacket cfg rng (s.senderBase + j) (roundPrefix cfg rng s j).1) ∧
    (∀ rng2 : Rng, (∀ i, i < (sendWindow cfg rng s).1.rngPos → rng2 i = rng i) →
      sendWindow cfg rng2 s = sendWindow cfg rng s) := by
  refine ⟨fun h => ?_, fun h => ?_, fun rng2 hag =>
    sendWindow_congr cfg rng rng2 s _ (le_refl _) hag⟩
  · rw [sendWindow_eq_roundPrefix] at h ⊢
    rw [(roundPrefix_noBreak cfg rng s _ h).2, Nat.min_eq_right (windowCount_le cfg s)]
  · rw [sendWindow_eq_roundPrefix] at h ⊢
    obtain ⟨j, _, hw, h1, h2, h3⟩ := roundPrefix_break_index cfg rng s _ h
    have hbrk := sendPacket_break cfg rng (s.senderBase + j) (roundPrefix cfg rng s j).1
    rw [h2] at hbrk
    simp only [Bool.true_eq, Bool.and_eq_true] at hbrk
    refine ⟨j, hw, ?_, hbrk.1, hbrk.2, fun i hi => ?_, h3⟩
    · rw [h3, sentSeqs_sendPacket, (roundPrefix_noBreak cfg rng s j h1).2,
        Nat.min_eq_left (le_of_lt hw), List.range_succ, List.map_append, List.append_assoc]
      rfl
    · have hi1 := roundPrefix_false_of_le cfg rng s i j (le_of_lt hi) h1
      have hi2 := roundPrefix_false_of_le cfg rng s (i + 1) j (by omega) h1
      rw [roundPrefix_step cfg rng s i (by omega) hi1] at hi2
      exact hi2

theorem round_attempts_witness :
    sentSeqs (sendWindow mainConfig rngAckLoss initState).1.log =
      sentSeqs initState.log ++
        (List.range (windowCount mainConfig initState)).map
          (fun i : Nat => initState.senderBase + (i : Int)) ∧
    sentSeqs (sendWindow mainConfig rngAckLoss initState).1.log = [0, 1, 2] ∧
    sentSeqs (sendWindow mainConfig rngLossy initState).1.log = [0, 1] :=
  ⟨(round_attempts mainConfig rngAckLoss initState).1 (by with_unfolding_all decide),
    by with_unfolding_all decide, by with_unfolding_all decide⟩

/-! ## The receiver stays within one window of the sender -/

theorem windowLoop_window_spec (cfg : Config) (rng : Rng) (hw : 0 ≤ cfg.senderWindowSize)
    (fuel : Nat) :
    ∀ (seq : Int) (s : State), Inv cfg s → s.senderBase ≤ seq →
      s.receiverExpected ≤ s.senderBase + cfg.senderWindowSize →
      (windowLoop cfg rng fuel seq s).1.receiverExpected ≤ s.senderBase + cfg.senderWindowSize ∧
      (windowLoop cfg rng fuel seq s).1.senderBase ≤ s.senderBase + cfg.senderWindowSize ∧
      ((windowLoop cfg rng fuel seq s).1.senderBase < cfg.totalPackets →
        (windowLoop cfg rng fuel seq s).1.receiverExpected ≤
          (windowLoop cfg rng fuel seq s).1.senderBase + cfg.senderWindowSize) := by
  induction fuel with
  | zero =>
    intro seq s _ _ he
    exact ⟨he, by show s.senderBase ≤ _; omega, fun _ => he⟩
  | succ fuel ih =>
    intro seq s hi hseq he
    obtain ⟨h0, h1, h2⟩ := hi
    by_cases hc : seq < s.senderBase + cfg.senderWindowSize ∧ seq < cfg.totalPackets
    · have hE := sendPacket_receiverExpected cfg rng seq s
      by_cases hb : (sendPacket cfg rng seq s).2 = true
      · rw [windowLoop_break cfg rng fuel seq s hc hb]
        have hB := sendPacket_senderBase cfg rng seq s
        have hb2 := sendPacket_break cfg rng seq s
        rw [hb] at hb2
        simp only [Bool.true_eq, Bool.and_eq_true] at hb2
        simp only [hb2.1, hb2.2, if_true, true_and] at hB hE
        rw [hB, hE]
        split_ifs <;> omega
      · have hb' : (sendPacket cfg rng seq s).2 = false := by simpa using hb
        have e1 : windowLoop cfg rng (fuel + 1) seq s =
            windowLoop cfg rng fuel (seq + 1) (sendPacket cfg rng seq s).1 := by
          simp [windowLoop, hc, hb']
        have hB' := sendPacket_noBreak cfg rng seq s hb
        have hE' : s.receiverExpected ≤ (sendPacket cfg rng seq s).1.receiverExpected ∧
            (sendPacket cfg rng seq s).1.receiverExpected + 1 ≤ cfg.totalPackets ∧
            (sendPacket cfg rng seq s).1.receiverExpected ≤
              s.senderBase + cfg.senderWindowSize := by
          rw [hE]; split_ifs <;> omega
        have hi' : Inv cfg (sendPacket cfg rng seq s).1 := ⟨by omega, by omega, hE'.2.1⟩
        have := ih (seq + 1) (sendPacket cfg rng seq s).1 hi' (by omega) (by omega)
        rw [hB'] at this
        rw [e1]
        exact this
    · rw [windowLoop_false_of_not_cond cfg rng _ seq s hc]
      exact ⟨he, by show s.senderBase ≤ _; omega, fun _ => he⟩

theorem sendWindow_window_spec (cfg : Config) (rng : Rng) (hw : 0 ≤ cfg.senderWindowSize)
    (s : State) (hi : Inv cfg s)
    (he : s.receiverExpected ≤ s.senderBase + cfg.senderWindowSize) :
    (sendWindow cfg rng s).1.receiverExpected ≤ s.senderBase + cfg.senderWindowSize ∧
    (sendWindow cfg rng s).1.senderBase ≤ s.senderBase + cfg.senderWindowSize ∧
    ((sendWindow cfg rng s).1.senderBase < cfg.totalPackets →
      (sendWindow cfg rng s).1.receiverExpected ≤
        (sendWindow cfg rng s).1.senderBase + cfg.senderWindowSize) :=
  windowLoop_window_spec cfg rng hw _ s.senderBase (s.say _) hi (le_refl _) he

theorem run_window (cfg : Config) (rng : Rng)
    (hp : 1 ≤ cfg.totalPackets) (hw : 1 ≤ cfg.senderWindowSize) (n : Nat) :
    (run cfg rng n).senderBase < cfg.totalPackets →
      (run cfg rng n).receiverExpected ≤ (run cfg rng n).senderBase + cfg.senderWindowSize := by
  induction n with
  | zero => intro _; show (0 : Int) ≤ 0 + cfg.senderWindowSize; omega
  | succ n ih =>
    rw [run_succ]
    split_ifs with h
    · rw [windowRound_senderBase, windowRound_receiverExpected]
      exact (sendWindow_window_spec cfg rng (by omega) _
        ((run_good cfg rng hp n).inv h) (ih h)).2.2
    · intro h'; exact absurd h' h

/-- C15: at every round boundary reachable from the initial state with packets left (at
least one packet, window of at least one), `senderBase <= receiverExpected <=
senderBase + senderWindowSize`; and the round started there leaves `senderBase` at most
`senderWindowSize` above its value at the start. -/
theorem receiver_within_window (cfg : Config) (rng : Rng)
    (hp : 1 ≤ cfg.totalPackets) (hw : 1 ≤ cfg.senderWindowSize) (n : Nat)
    (hlt : (run cfg rng n).senderBase < cfg.totalPackets) :
    (run cfg rng n).senderBase ≤ (run cfg rng n).receiverExpected ∧
    (run cfg rng n).receiverExpected ≤ (run cfg rng n).senderBase + cfg.senderWindowSize ∧
    (run cfg rng (n + 1)).senderBase ≤ (run cfg rng n).senderBase + cfg.senderWindowSize := by
  have hi := (run_good cfg rng hp n).inv hlt
  have he := run_window cfg rng hp hw n hlt
  refine ⟨hi.2.1, he, ?_⟩
  rw [run_succ, if_pos hlt, windowRound_senderBase]
  exact (sendWindow_window_spec cfg rng (by omega) _ hi he).2.1

theorem receiver_within_window_witness :
    (run mainConfig rngAckLoss 1).senderBase ≤ (run mainConfig rngAckLoss 1).receiverExpected ∧
    (run mainConfig rngAckLoss 1).receiverExpected ≤
      (run mainConfig rngAckLoss 1).senderBase + mainConfig.senderWindowSize ∧
    (run mainConfig rngAckLoss (1 + 1)).senderBase ≤
      (run mainConfig rngAckLoss 1).senderBase + mainConfig.senderWindowSize :=
  receiver_within_window mainConfig rngAckLoss (by decide) (by decide) 1
    (by with_unfolding_all decide)

/-! ## One segment per round on a channel that delivers everything -/

theorem sendWindow_first_eq (cfg : Config) (rng : Rng) (s : State)
    (hw : 1 ≤ cfg.senderWindowSize) (hlt : s.senderBase < cfg.totalPackets)
    (hd : chance cfg.dataSuccessProb (rng s.rngPos) = true)
    (ha : chance cfg.ackSuccessProb (rng (s.rngPos + 1)) = true) :
    sendWindow cfg rng s = sendPacket cfg rng s.senderBase (s.say (.window s.senderBase
      (min (s.senderBase + cfg.senderWindowSize - 1) (cfg.totalPackets - 1)))) := by
  obtain ⟨f, hf⟩ : ∃ f, cfg.senderWindowSize.toNat = f + 1 :=
    ⟨cfg.senderWindowSize.toNat - 1, by omega⟩
  unfold sendWindow
  rw [hf]
  apply windowLoop_break
  · exact ⟨by simp only [say_senderBase]; omega, hlt⟩
  · rw [sendPacket_break]; simp [hd, ha]

theorem windowRound_log_of_break (cfg : Config) (rng : Rng) (s : State)
    (h : (sendWindow cfg rng s).2 = true) :
    (windowRound cfg rng s).log = (sendWindow cfg rng s).1.log ++ [.sleep 500] := by
  unfold windowRound
  simp [h, State.say]

/-- The narration of one round on a channel that delivers the next two draws, when the
receiver expects `senderBase`. -/
theorem windowRound_log_delivered (cfg : Config) (rng : Rng) (s : State)
    (hw : 1 ≤ cfg.senderWindowSize) (hlt : s.senderBase < cfg.totalPackets)
    (he : s.receiverExpected = s.senderBase)
    (hd : chance cfg.dataSuccessProb (rng s.rngPos) = true)
    (ha : chance cfg.ackSuccessProb (rng (s.rngPos + 1)) = true) :
    (windowRound cfg rng s).log = s.log ++
      ([.window s.senderBase
          (min (s.senderBase + cfg.senderWindowSize - 1) (cfg.totalPackets - 1)),
        .sending s.senderBase, .receivedExpected s.senderBase,
        .sliding s.senderBase (s.senderBase + 1)] ++
      (if s.senderBase + 1 < cfg.totalPackets
        then [.sendingAck (s.senderBase + 1), .receivedAck (s.senderBase + 1)]
        else [.receivedAck s.senderBase]) ++ [.sleep 500]) := by
  have hb := (sendWindow_first_break cfg rng s hw hlt hd ha).1
  rw [windowRound_log_of_break cfg rng s hb, sendWindow_first_eq cfg rng s hw hlt hd ha,
    sendPacket_log]
  simp only [say_rngPos, say_receiverExpected, hd, ha, he, if_true, State.say]
  split_ifs <;> simp

theorem run_log_perfect (cfg : Config) (rng : Rng)
    (hp : 1 ≤ cfg.totalPackets) (hw : 1 ≤ cfg.senderWindowSize)
    (hcalls : ∀ m : Nat, (run cfg rng m).senderBase < cfg.totalPackets →
      chance cfg.dataSuccessProb (rng (run cfg rng m).rngPos) = true ∧
      chance cfg.ackSuccessProb (rng ((run cfg rng m).rngPos + 1)) = true) (n : Nat) (hn : (n : Int) < cfg.totalPackets) :
    (run cfg rng (n + 1)).log = (run cfg rng n).log ++
      ([.window n (min ((n : Int) + cfg.senderWindowSize - 1) (cfg.totalPackets - 1)),
        .sending n, .receivedExpected n, .sliding n ((n : Int) + 1)] ++
      (if (n : Int) + 1 < cfg.totalPackets
        then [.sendingAck ((n : Int) + 1), .receivedAck ((n : Int) + 1)]
        else [.receivedAck n]) ++ [.sleep 500]) := by
  obtain ⟨b, e, _⟩ := run_perfect cfg rng hp hw hcalls n (le_of_lt hn)
  have hlt : (run cfg rng n).senderBase < cfg.totalPackets := by rw [b]; exact hn
  have e' : (run cfg rng n).receiverExpected = (run cfg rng n).senderBase := by
    rw [e, b, min_eq_left]; omega
  rw [run_succ, if_pos hlt,
    windowRound_log_delivered cfg rng _ hw hlt e' (hcalls n hlt).1 (hcalls n hlt).2, b]

/-- C16: when every call to `chance` returns true (in each round that runs, the data draw
for `seq = senderBase` passes `dataSuccessProb` and the acknowledgment draw that follows
passes `ackSuccessProb`; draws the run does not consume are not constrained), from the
initial state (at least one packet, window of at least one) each round prints exactly one
"Sending packet" line, for `seq = senderBase`, accepts that packet, receives its
acknowledgment, consumes exactly those two draws and advances `senderBase` by exactly 1
without a timeout line; the loop is still running after fewer
than `totalPackets` rounds and has left after exactly `totalPackets`; for
`totalPackets = 10`, `senderWindowSize = 3` the segments attempted over the run are
0, 1, ..., 9, one per round, and `senderBase` goes 0, 1, ..., 10. -/
theorem perfect_channel_one_segment (cfg : Config) (rng : Rng)
    (hp : 1 ≤ cfg.totalPackets) (hw : 1 ≤ cfg.senderWindowSize)
    (hcalls : ∀ m : Nat, (run cfg rng m).senderBase < cfg.totalPackets →
      chance cfg.dataSuccessProb (rng (run cfg rng m).rngPos) = true ∧
      chance cfg.ackSuccessProb (rng ((run cfg rng m).rngPos + 1)) = true) :
    (∀ n : Nat, (n : Int) < cfg.totalPackets →
      (run cfg rng (n + 1)).log = (run cfg rng n).log ++
        ([.window n (min ((n : Int) + cfg.senderWindowSize - 1) (cfg.totalPackets - 1)),
          .sending n, .receivedExpected n, .sliding n ((n : Int) + 1)] ++
        (if (n : Int) + 1 < cfg.totalPackets
          then [.sendingAck ((n : Int) + 1), .receivedAck ((n : Int) + 1)]
          else [.receivedAck n]) ++ [.sleep 500]) ∧
      sentSeqs (run cfg rng (n + 1)).log = sentSeqs (run cfg rng n).log ++ [(n : Int)] ∧
      (run cfg rng n).senderBase = n ∧
      (run cfg rng (n + 1)).senderBase = (n : Int) + 1 ∧
      (run cfg rng (n + 1)).rngPos = (run cfg rng n).rngPos + 2 ∧
      terminated cfg (run cfg rng n) = false) ∧
    (∀ n : Nat, (n : Int) ≤ cfg.totalPackets →
      sentSeqs (run cfg rng n).log = (List.range n).map (fun i : Nat => (i : Int)) ∧
      ∀ b, Event.timeout b ∉ (run cfg rng n).log) ∧
    terminated cfg (run cfg rng cfg.totalPackets.toNat) = true ∧
    (cfg.totalPackets = 10 → cfg.senderWindowSize = 3 →
      sentSeqs (run cfg rng 10).log = [0, 1, 2, 3, 4, 5, 6, 7, 8, 9] ∧
      (run cfg rng 10).senderBase = 10 ∧
      terminated cfg (run cfg rng 10) = true ∧
      terminated cfg (run cfg rng 9) = false) := by
  have base : ∀ n : Nat, (n : Int) ≤ cfg.totalPackets → (run cfg rng n).senderBase = n :=
    fun n hn => (run_perfect cfg rng hp hw hcalls n hn).1
  have hsent : ∀ n : Nat, (n : Int) < cfg.totalPackets →
      sentSeqs (run cfg rng (n + 1)).log = sentSeqs (run cfg rng n).log ++ [(n : Int)] := by
    intro n hn
    rw [run_log_perfect cfg rng hp hw hcalls n hn, sentSeqs_append]
    congr 1
    split_ifs <;> simp [sentSeqs]
  have sofar : ∀ n : Nat, (n : Int) ≤ cfg.totalPackets →
      sentSeqs (run cfg rng n).log = (List.range n).map (fun i : Nat => (i : Int)) ∧
      ∀ b, Event.timeout b ∉ (run cfg rng n).log := by
    intro n
    induction n with
    | zero => intro _; exact ⟨rfl, fun b h => by simp [run, mainLoop, initState] at h⟩
    | succ n ih =>
      intro hn
      have hn' : (n : Int) < cfg.totalPackets := by push_cast at hn; omega
      obtain ⟨i1, i2⟩ := ih (le_of_lt hn')
      refine ⟨?_, fun b => ?_⟩
      · rw [hsent n hn', i1, List.range_succ, List.map_append]; rfl
      · rw [run_log_perfect cfg rng hp hw hcalls n hn']
        have := i2 b
        split_ifs <;> simp [this]
  have live : ∀ n : Nat, (n : Int) < cfg.totalPackets → terminated cfg (run cfg rng n) = false := by
    intro n hn
    simp [terminated, base n (le_of_lt hn), hn]
  have fin : ∀ n : Nat, (n : Int) = cfg.totalPackets → terminated cfg (run cfg rng n) = true := by
    intro n hn
    simp [terminated, base n (le_of_eq hn), hn]
  refine ⟨fun n hn => ⟨run_log_perfect cfg rng hp hw hcalls n hn, hsent n hn,
    base n (le_of_lt hn), ?_, ?_, live n hn⟩, sofar, fin _ (by omega), fun h10 _ => ?_⟩
  · rw [base (n + 1) (by push_cast; omega)]; push_cast; rfl
  · rw [(run_perfect cfg rng hp hw hcalls n (le_of_lt hn)).2.2,
      (run_perfect cfg rng hp hw hcalls (n + 1) (by push_cast; omega)).2.2]
    omega
  · refine ⟨?_, ?_, fin 10 (by rw [h10]; rfl), live 9 (by rw [h10]; decide)⟩
    · rw [(sofar 10 (by rw [h10]; decide)).1]; rfl
    · rw [base 10 (by rw [h10]; decide)]; rfl

theorem perfect_channel_one_segment_witness :
    sentSeqs (run mainConfig rngDataHigh (3 + 1)).log =
      sentSeqs (run mainConfig rngDataHigh 3).log ++ [((3 : Nat) : Int)] ∧
    (run mainConfig rngDataHigh 3).senderBase = (3 : Nat) ∧
    (run mainConfig rngDataHigh (3 + 1)).senderBase = ((3 : Nat) : Int) + 1 ∧
    (run mainConfig rngDataHigh (3 + 1)).rngPos = (run mainConfig rngDataHigh 3).rngPos + 2 ∧
    terminated mainConfig (run mainConfig rngDataHigh 3) = false ∧
    terminated mainConfig (run mainConfig rngDataHigh mainConfig.totalPackets.toNat) = true :=
  ⟨((perfect_channel_one_segment mainConfig rngDataHigh (by decide) (by decide)
      (fun m _ => rngDataHigh_calls m)).1 3 (by decide)).2.1,
    ((perfect_channel_one_segment mainConfig rngDataHigh (by decide) (by decide)
      (fun m _ => rngDataHigh_calls m)).1 3 (by decide)).2.2.1,
    ((perfect_channel_one_segment mainConfig rngDataHigh (by decide) (by decide)
      (fun m _ => rngDataHigh_calls m)).1 3 (by decide)).2.2.2.1,
    ((perfect_channel_one_segment mainConfig rngDataHigh (by decide) (by decide)
      (fun m _ => rngDataHigh_calls m)).1 3 (by decide)).2.2.2.2.1,
    ((perfect_channel_one_segment mainConfig rngDataHigh (by decide) (by decide)
      (fun m _ => rngDataHigh_calls m)).1 3 (by decide)).2.2.2.2.2,
    (perfect_channel_one_segment mainConfig rngDataHigh (by decide) (by decide)
      (fun m _ => rngDataHigh_calls m)).2.2.1⟩

/-! ## Reaching `totalPackets` -/

theorem sendPacket_reaches_total (cfg : Config) (rng : Rng) (seq : Int) (s : State)
    (he : s.receiverExpected + 1 ≤ cfg.totalPackets) (hlt : s.senderBase < cfg.totalPackets)
    (h : (sendPacket cfg rng seq s).1.senderBase = cfg.totalPackets) :
    seq = cfg.totalPackets - 1 ∧ seq = s.receiverExpected ∧
    chance cfg.dataSuccessProb (rng s.rngPos) = true ∧
    chance cfg.ackSuccessProb (rng (s.rngPos + 1)) = true := by
  rw [sendPacket_senderBase] at h
  by_cases hd : chance cfg.dataSuccessProb (rng s.rngPos) = true
  · by_cases ha : chance cfg.ackSuccessProb (rng (s.rngPos + 1)) = true
    · by_cases hq : seq = s.receiverExpected
      · rw [if_pos hd, if_pos ha, if_pos hq] at h
        exact ⟨by omega, hq, hd, ha⟩
      · rw [if_pos hd, if_pos ha, if_neg hq] at h
        omega
    · rw [if_pos hd, if_neg ha] at h; omega
  · rw [if_neg hd] at h; omega

theorem sendPacket_below_total (cfg : Config) (rng : Rng) (seq : Int) (s : State)
    (he : s.receiverExpected + 1 ≤ cfg.totalPackets) (hlt : s.senderBase < cfg.totalPackets)
    (h : seq ≠ s.receiverExpected ∨ seq < cfg.totalPackets - 1) :
    (sendPacket cfg rng seq s).1.senderBase ≤ cfg.totalPackets - 1 := by
  rw [sendPacket_senderBase]
  split_ifs <;> omega

theorem run_receiverExpected_mono (cfg : Config) (rng : Rng) (hp : 1 ≤ cfg.totalPackets)
    (n m : Nat) :
    (run cfg rng n).receiverExpected ≤ (run cfg rng (n + m)).receiverExpected := by
  induction m with
  | zero => exact le_refl _
  | succ m ih => exact le_trans ih (run_step_mono cfg rng hp (n + m)).2.1

theorem sendPacket_last_accept (cfg : Config) (rng : Rng) (seq : Int) (s : State)
    (he : s.receiverExpected = cfg.totalPackets - 1) :
    (sendPacket cfg rng seq s).1.receiverExpected = cfg.totalPackets - 1 ∧
    (chance cfg.dataSuccessProb (rng s.rngPos) = true → seq = cfg.totalPackets - 1 →
      Event.receivedExpected seq ∈ packetLines cfg rng seq s) := by
  constructor
  · rw [sendPacket_receiverExpected, if_neg (fun c => by omega), he]
  · intro hd hseq
    rw [packetLines_eq]
    simp only [hd, if_true, if_pos (hseq.trans he.symm)]
    split_ifs <;> simp

/-- C17: in a run from the initial state (at least one packet, window of at least one),
a round that starts with `senderBase < totalPackets` and ends with
`senderBase = totalPackets` is one whose loop broke at segment `seq = totalPackets - 1`,
delivered with `seq == receiverExpected` and with the acknowledgment draw for that segment
delivered; a discarded segment or a segment before the last can only leave `senderBase`
at most `totalPackets - 1`; and once `receiverExpected = totalPackets - 1` it stays
there in every later state, at round boundaries and inside rounds, every delivered copy of
the last packet taking the accept branch again. -/
theorem total_only_by_final_accept (cfg : Config) (rng : Rng)
    (hp : 1 ≤ cfg.totalPackets) (_hw : 1 ≤ cfg.senderWindowSize) (n : Nat) :
    ((run cfg rng n).senderBase < cfg.totalPackets →
      (run cfg rng (n + 1)).senderBase = cfg.totalPackets →
      ∃ j : Nat, j < windowCount cfg (run cfg rng n) ∧
        (roundPrefix cfg rng (run cfg rng n) j).2 = false ∧
        (run cfg rng n).senderBase + j = cfg.totalPackets - 1 ∧
        (roundPrefix cfg rng (run cfg rng n) j).1.receiverExpected = cfg.totalPackets - 1 ∧
        chance cfg.dataSuccessProb
          (rng (roundPrefix cfg rng (run cfg rng n) j).1.rngPos) = true ∧
        chance cfg.ackSuccessProb
          (rng ((roundPrefix cfg rng (run cfg rng n) j).1.rngPos + 1)) = true ∧
        sendWindow cfg rng (run cfg rng n) =
          sendPacket cfg rng (cfg.totalPackets - 1)
            (roundPrefix cfg rng (run cfg rng n) j).1) ∧
    ((run cfg rng n).senderBase < cfg.totalPackets → ∀ (k : Nat) (seq : Int),
      (roundPrefix cfg rng (run cfg rng n) k).2 = false →
      seq ≠ (roundPrefix cfg rng (run cfg rng n) k).1.receiverExpected ∨
        seq < cfg.totalPackets - 1 →
      (sendPacket cfg rng seq (roundPrefix cfg rng (run cfg rng n) k).1).1.senderBase ≤
        cfg.totalPackets - 1) ∧
    ((run cfg rng n).receiverExpected = cfg.totalPackets - 1 → ∀ (m k : Nat) (seq : Int),
      (run cfg rng (n + m)).receiverExpected = cfg.totalPackets - 1 ∧
      (roundPrefix cfg rng (run cfg rng (n + m)) k).1.receiverExpected = cfg.totalPackets - 1 ∧
      (sendPacket cfg rng seq
        (roundPrefix cfg rng (run cfg rng (n + m)) k).1).1.receiverExpected =
          cfg.totalPackets - 1 ∧
      (chance cfg.dataSuccessProb
          (rng (roundPrefix cfg rng (run cfg rng (n + m)) k).1.rngPos) = true →
        seq = cfg.totalPackets - 1 →
        Event.receivedExpected seq ∈
          packetLines cfg rng seq (roundPrefix cfg rng (run cfg rng (n + m)) k).1)) := by
  refine ⟨fun hlt htot => ?_, fun hlt k seq hk hs => ?_, fun he m k seq => ?_⟩
  · have hi := (run_good cfg rng hp n).inv hlt
    rw [run_succ, if_pos hlt, windowRound_senderBase] at htot
    have hbrk : (sendWindow cfg rng (run cfg rng n)).2 = true := by
      by_contra hc
      have hf : (sendWindow cfg rng (run cfg rng n)).2 = false := by simpa using hc
      have := (sendWindow_spec cfg rng _ hi).2.2.2.2 hf
      omega
    rw [sendWindow_eq_roundPrefix] at hbrk htot
    obtain ⟨j, _, hjw, h1, _, h3⟩ := roundPrefix_break_index cfg rng _ _ hbrk
    obtain ⟨g, _, _, _, hb⟩ := roundPrefix_spec cfg rng _ hi j
    have hB := hb h1
    rw [h3] at htot
    obtain ⟨q1, q2, q3, q4⟩ := sendPacket_reaches_total cfg rng _ _ g.2.2.1
      (by rw [hB]; exact hlt) htot
    refine ⟨j, hjw, h1, q1, by omega, q3, q4, ?_⟩
    rw [sendWindow_eq_roundPrefix, h3, q1]
  · have hi := (run_good cfg rng hp n).inv hlt
    obtain ⟨g, _, _, _, hb⟩ := roundPrefix_spec cfg rng _ hi k
    exact sendPacket_below_total cfg rng seq _ g.2.2.1 (by rw [hb hk]; exact hlt) hs
  · have h1 := run_receiverExpected_mono cfg rng hp n m
    have g := run_good cfg rng hp (n + m)
    have h2 := g.2.2.1
    have e1 : (run cfg rng (n + m)).receiverExpected = cfg.totalPackets - 1 := by omega
    obtain ⟨_, p1, p2⟩ := roundPrefix_receiverExpected cfg rng _ g k
    have e2 : (roundPrefix cfg rng (run cfg rng (n + m)) k).1.receiverExpected =
        cfg.totalPackets - 1 := by omega
    obtain ⟨q1, q2⟩ := sendPacket_last_accept cfg rng seq _ e2
    exact ⟨e1, e2, q1, q2⟩

theorem total_only_by_final_accept_witness :
    ∃ j : Nat, j < windowCount mainConfig (run mainConfig rngLossy 5) ∧
      (roundPrefix mainConfig rngLossy (run mainConfig rngLossy 5) j).2 = false ∧
      (run mainConfig rngLossy 5).senderBase + j = mainConfig.totalPackets - 1 ∧
      (roundPrefix mainConfig rngLossy (run mainConfig rngLossy 5) j).1.receiverExpected =
        mainConfig.totalPackets - 1 ∧
      chance mainConfig.dataSuccessProb
        (rngLossy (roundPrefix mainConfig rngLossy (run mainConfig rngLossy 5) j).1.rngPos) = true ∧
      chance mainConfig.ackSuccessProb
        (rngLossy ((roundPrefix mainConfig rngLossy (run mainConfig rngLossy 5) j).1.rngPos + 1)) =
          true ∧
      sendWindow mainConfig rngLossy (run mainConfig rngLossy 5) =
        sendPacket mainConfig rngLossy (mainConfig.totalPackets - 1)
          (roundPrefix mainConfig rngLossy (run mainConfig rngLossy 5) j).1 :=
  (total_only_by_final_accept mainConfig rngLossy (by decide) (by decide) 5).1
    (by with_unfolding_all decide) (by with_unfolding_all decide)

end GoBackN
